import Mathlib

/-!
Verification of `start_services.py`, the deployment sequencer of the
`local-ai-packaged` repository.

The script is modelled by a shallow embedding:

* file contents are `List Char`; the filesystem is a map `String → Option Node`;
* Python `str.replace` / `in` / `lower` / `strip` / `split` are re-implemented
  on `List Char` (`replaceAll`, `occursB`, `pyLower`, `pyStrip`, `splitNl`)
  with Python's exact semantics (leftmost, non-overlapping replacement of all
  occurrences; exact substring matching);
* external processes (git, docker, sed, openssl, powershell) are not executed:
  each invocation is recorded as an `Event` in a trace, and the outcome of an
  invocation (success, failure, captured stdout) is supplied by a `World`
  record.  External tools' effects on the filesystem are not modelled (the
  spec treats the vendored tree and tool effects as opaque);
* randomness (`secrets.choice`, `secrets.token_hex`) is modelled by entropy
  streams `Nat → Nat` passed in from the `World`;
* Python exceptions are modelled by success flags: an operation that the
  script does not guard aborts the run (`ok := false`), an operation inside a
  `try`/`except` block is handled exactly as the source handles it.
-/

set_option autoImplicit false

namespace StartServices

/-! ### Python string primitives on `List Char` -/

/-- Boolean "is prefix of" on character lists. -/
def pfx : List Char → List Char → Bool
  | [], _ => true
  | _ :: _, [] => false
  | a :: as, b :: bs => a == b && pfx as bs

/-- Python's substring test `pat in s` (exact substring occurrence). -/
def occursB (pat : List Char) : List Char → Bool
  | [] => pat.isEmpty
  | c :: s => pfx pat (c :: s) || occursB pat s

/-- Helper for `replaceAll`, structurally recursive on a fuel argument that is
always called with `fuel = s.length` (so that the definition reduces inside
the kernel). -/
def replaceAllGo (pat rep : List Char) : Nat → List Char → List Char
  | _, [] => []
  | 0, s => s
  | fuel + 1, c :: s =>
    if pat ≠ [] ∧ pfx pat (c :: s) = true then
      rep ++ replaceAllGo pat rep fuel (s.drop (pat.length - 1))
    else
      c :: replaceAllGo pat rep fuel s

/-- Python's `s.replace(pat, rep)`: replace every occurrence of `pat`,
scanning left to right, non-overlapping.  (For `pat = []` the source never
calls it; here it is the identity.) -/
def replaceAll (pat rep s : List Char) : List Char :=
  replaceAllGo pat rep s.length s

/-- Split on newline characters, Python's `s.split('\n')`. -/
def splitNl : List Char → List (List Char)
  | [] => [[]]
  | c :: s =>
    if c = '\n' then [] :: splitNl s
    else
      match splitNl s with
      | [] => [[c]]
      | l :: ls => (c :: l) :: ls

/-- Join with newline characters (left inverse of `splitNl`). -/
def joinNl : List (List Char) → List Char
  | [] => []
  | [l] => l
  | l :: l' :: ls => l ++ '\n' :: joinNl (l' :: ls)

/-- ASCII lower-casing of one character (Python `str.lower` on ASCII input). -/
def lowerChar (c : Char) : Char :=
  if 'A' ≤ c ∧ c ≤ 'Z' then Char.ofNat (c.toNat + 32) else c

/-- Python `s.lower()` (ASCII fragment). -/
def pyLower (s : List Char) : List Char := s.map lowerChar

/-- Python's default whitespace set for `str.strip`. -/
def isPySpace (c : Char) : Bool :=
  c = ' ' || c = '\t' || c = '\n' || c = '\r' || c = '\x0b' || c = '\x0c'

/-- Python `s.strip()`: drop leading and trailing whitespace. -/
def pyStrip (s : List Char) : List Char :=
  ((s.dropWhile isPySpace).reverse.dropWhile isPySpace).reverse

/-! ### The embedded program

The remaining definitions translate `start_services.py` function by function.
External processes are never executed: every `subprocess` call is recorded as
an `Event`, and its outcome (exit status, captured stdout) is supplied by the
`World`.  Effects of external tools on the file system (git populating the
vendored tree, sed editing the settings file) are not modelled; only the
script's own file operations change the `FS`. -/

/-- A filesystem node: a regular file with content, or a directory. -/
inductive Node
  | file (content : List Char)
  | dir
deriving DecidableEq

/-- The filesystem: a map from path to node (paths as opaque strings, POSIX
separators as produced by `os.path.join` on Linux). -/
def FS : Type := String → Option Node

/-- Observable actions of the script: external process invocations and
sleeps. -/
inductive Event
  | cmd (argv : List String)
  | sleep (n : Nat)
deriving DecidableEq

/-- `platform.system()` outcomes distinguished by the script. -/
inductive Plat
  | windows
  | darwin
  | linux
deriving DecidableEq

/-- Environment of a run: entropy, stdin, and outcomes of external calls. -/
structure World where
  platform : Plat
  now : Nat
  stdinResponse : List Char
  /-- Entropy for the ten secret-generator calls of `update_env_secrets`
  (call index, then position index). -/
  secretEntropy : Nat → Nat → Nat
  /-- Whether a checked subprocess invocation exits successfully. -/
  cmdOk : List String → Bool
  /-- Captured output of `openssl rand -hex 32`, or a raised error. -/
  opensslOut : Except Unit (List Char)
  /-- Whether `shutil.copyfile src dst` succeeds. -/
  copyfileOk : String → String → Bool
  /-- Captured stdout of `docker ps --filter name=searxng`, or a raised
  error. -/
  dockerPs : Except Unit (List Char)
  /-- Captured stdout of the `docker exec` marker-file probe (run with
  `check=False`, so a bad exit status is not an error), or a raised error. -/
  dockerExec : List Char → Except Unit (List Char)

/-- Result of a script step: success flag, filesystem, emitted events. -/
structure StepRes where
  ok : Bool
  fs : FS
  tr : List Event

/-- Read a regular file. -/
def readFile (fs : FS) (p : String) : Option (List Char) :=
  match fs p with
  | some (Node.file c) => some c
  | _ => none

/-- `run_command`: one checked subprocess invocation. -/
def run_command (w : World) (fs : FS) (argv : List String) : StepRes :=
  { ok := w.cmdOk argv, fs := fs, tr := [Event.cmd argv] }

/-- Run a sequence of checked invocations, stopping at the first failure
(as the raised `CalledProcessError` would). -/
def runSeq (w : World) (fs : FS) : List (List String) → StepRes
  | [] => { ok := true, fs := fs, tr := [] }
  | argv :: rest =>
    let r := run_command w fs argv
    if r.ok then
      let r2 := runSeq w r.fs rest
      { ok := r2.ok, fs := r2.fs, tr := r.tr ++ r2.tr }
    else
      { ok := false, fs := r.fs, tr := r.tr }

/-! #### Secret generation (`generate_secret`, `generate_hex_secret`) -/

/-- `string.ascii_letters`. -/
def asciiLetters : List Char :=
  "abcdefghijklmnopqrstuvwxyzABCDEFGHIJKLMNOPQRSTUVWXYZ".toList

/-- `string.ascii_letters + string.digits`, the alphabet of
`generate_secret`. -/
def secretAlphabet : List Char := asciiLetters ++ "0123456789".toList

/-- Lowercase hexadecimal digits, the alphabet of `secrets.token_hex`. -/
def hexDigitsList : List Char := "0123456789abcdef".toList

/-- `generate_secret(length)`: `length` independent choices from the
alphanumeric alphabet (entropy stream `e`). -/
def generate_secret (e : Nat → Nat) (length : Nat) : List Char :=
  (List.range length).map (fun i => secretAlphabet.getD (e i % secretAlphabet.length) 'a')

/-- `generate_hex_secret(length) = secrets.token_hex(length)`: `length` random
bytes printed as `2*length` lowercase hex digits (entropy per nibble). -/
def generate_hex_secret (e : Nat → Nat) (length : Nat) : List Char :=
  (List.range (2 * length)).map (fun i => hexDigitsList.getD (e i % 16) '0')

/-! #### `update_env_secrets` -/

/-- The `replacements` dictionary of `update_env_secrets`, in insertion
order.  As in the source, every new value is generated afresh on each call,
whether or not the placeholder matches. -/
def envReplacements (e : Nat → Nat → Nat) : List (List Char × List Char) :=
  [ ("LOGFLARE_PUBLIC_ACCESS_TOKEN=your-super-secret-and-long-logflare-key-public".toList,
     "LOGFLARE_PUBLIC_ACCESS_TOKEN=".toList ++ generate_hex_secret (e 0) 32),
    ("LOGFLARE_PRIVATE_ACCESS_TOKEN=your-super-secret-and-long-logflare-key-private".toList,
     "LOGFLARE_PRIVATE_ACCESS_TOKEN=".toList ++ generate_hex_secret (e 1) 32),
    ("VAULT_ENC_KEY=your-vault-encryption-key-32-chars-min".toList,
     "VAULT_ENC_KEY=".toList ++ generate_secret (e 2) 32),
    ("N8N_ENCRYPTION_KEY=super-secret-key".toList,
     "N8N_ENCRYPTION_KEY=".toList ++ generate_hex_secret (e 3) 32),
    ("N8N_USER_MANAGEMENT_JWT_SECRET=even-more-secret".toList,
     "N8N_USER_MANAGEMENT_JWT_SECRET=".toList ++ generate_hex_secret (e 4) 32),
    ("CLICKHOUSE_PASSWORD=super-secret-key-1".toList,
     "CLICKHOUSE_PASSWORD=".toList ++ generate_secret (e 5) 32),
    ("MINIO_ROOT_PASSWORD=super-secret-key-2".toList,
     "MINIO_ROOT_PASSWORD=".toList ++ generate_secret (e 6) 32),
    ("LANGFUSE_SALT=super-secret-key-3".toList,
     "LANGFUSE_SALT=".toList ++ generate_hex_secret (e 7) 32),
    ("NEXTAUTH_SECRET=super-secret-key-4".toList,
     "NEXTAUTH_SECRET=".toList ++ generate_hex_secret (e 8) 32),
    ("ENCRYPTION_KEY=generate-with-openssl".toList,
     "ENCRYPTION_KEY=".toList ++ generate_hex_secret (e 9) 32) ]

/-- The ten placeholder entries (keys of the `replacements` dictionary). -/
def envPlaceholders : List (List Char) :=
  [ "LOGFLARE_PUBLIC_ACCESS_TOKEN=your-super-secret-and-long-logflare-key-public".toList,
    "LOGFLARE_PRIVATE_ACCESS_TOKEN=your-super-secret-and-long-logflare-key-private".toList,
    "VAULT_ENC_KEY=your-vault-encryption-key-32-chars-min".toList,
    "N8N_ENCRYPTION_KEY=super-secret-key".toList,
    "N8N_USER_MANAGEMENT_JWT_SECRET=even-more-secret".toList,
    "CLICKHOUSE_PASSWORD=super-secret-key-1".toList,
    "MINIO_ROOT_PASSWORD=super-secret-key-2".toList,
    "LANGFUSE_SALT=super-secret-key-3".toList,
    "NEXTAUTH_SECRET=super-secret-key-4".toList,
    "ENCRYPTION_KEY=generate-with-openssl".toList ]

/-- The replacement loop of `update_env_secrets`: for each pair in order,
if the placeholder occurs, replace it (recording a per-entry flag). -/
def applyReps : List (List Char × List Char) → List Char → List Char × List Bool
  | [], c => (c, [])
  | (o, n) :: rs, c =>
    if occursB o c = true then
      let r := applyReps rs (replaceAll o n c)
      (r.1, true :: r.2)
    else
      let r := applyReps rs c
      (r.1, false :: r.2)

/-- Result of `update_env_secrets`: success flag, filesystem, and the
per-entry "Updated:" flags in dictionary order. -/
structure EnvUpdate where
  ok : Bool
  fs : FS
  flags : List Bool

/-- `update_env_secrets`: missing file is only a warning; the file is written
back only when at least one placeholder matched. -/
def update_env_secrets (e : Nat → Nat → Nat) (fs : FS) : EnvUpdate :=
  match fs ".env" with
  | none => { ok := true, fs := fs, flags := [] }
  | some Node.dir => { ok := false, fs := fs, flags := [] }
  | some (Node.file content) =>
    let r := applyReps (envReplacements e) content
    if r.2.any id then
      { ok := true,
        fs := fun p => if p = ".env" then some (Node.file r.1) else fs p,
        flags := r.2 }
    else
      { ok := true, fs := fs, flags := r.2 }

/-! #### `clean_supabase_database` -/

def dbDataPath : String := "supabase/docker/volumes/db/data"

/-- `clean_supabase_database`: prompt (response is lowered then stripped),
and on `"y"` move the data directory to a timestamped backup path.  Returns
the filesystem and whether the reset was performed. -/
def clean_supabase_database (w : World) (fs : FS) : FS × Bool :=
  if (fs dbDataPath).isSome then
    if pyStrip (pyLower w.stdinResponse) = ['y'] then
      let backupPath := dbDataPath ++ ".backup." ++ toString w.now
      (fun p =>
        if p = backupPath then fs dbDataPath
        else if p = dbDataPath then none
        else fs p, true)
    else (fs, false)
  else (fs, false)

/-! #### `clone_supabase_repo` -/

def gitCloneCmd : List String :=
  ["git", "clone", "--filter=blob:none", "--no-checkout",
   "https://github.com/supabase/supabase.git"]

def gitSparseInitCmd : List String := ["git", "sparse-checkout", "init", "--cone"]

def gitSparseSetCmd : List String := ["git", "sparse-checkout", "set", "docker"]

def gitCheckoutCmd : List String := ["git", "checkout", "master"]

def gitPullCmd : List String := ["git", "pull"]

/-- `clone_supabase_repo`: clone + sparse checkout when the vendored
directory is absent, plain pull when it is present. -/
def clone_supabase_repo (w : World) (fs : FS) : StepRes :=
  if fs "supabase" = none then
    runSeq w fs [gitCloneCmd, gitSparseInitCmd, gitSparseSetCmd, gitCheckoutCmd]
  else
    runSeq w fs [gitPullCmd]

/-! #### `prepare_supabase_env` -/

/-- `prepare_supabase_env`: unconditional `shutil.copyfile(".env",
"supabase/docker/.env")`; a missing source or an IO failure raises and is not
caught. -/
def prepare_supabase_env (w : World) (fs : FS) : StepRes :=
  match fs ".env" with
  | some (Node.file c) =>
    if w.copyfileOk ".env" "supabase/docker/.env" then
      { ok := true,
        fs := fun p => if p = "supabase/docker/.env" then some (Node.file c) else fs p,
        tr := [] }
    else { ok := false, fs := fs, tr := [] }
  | _ => { ok := false, fs := fs, tr := [] }

/-! #### `stop_existing_containers`, `start_supabase`, `start_local_ai` -/

inductive Profile
  | cpu
  | gpuNvidia
  | gpuAmd
  | none
deriving DecidableEq

def profileStr : Profile → String
  | Profile.cpu => "cpu"
  | Profile.gpuNvidia => "gpu-nvidia"
  | Profile.gpuAmd => "gpu-amd"
  | Profile.none => "none"

/-- The `--environment` flag (`private` or `public`). -/
inductive Envt
  | priv
  | pub
deriving DecidableEq

structure Args where
  profile : Profile
  environment : Envt
  rebuild : Bool
  resetDb : Bool

/-- The argparse defaults: `--profile cpu --environment private`. -/
def defaultArgs : Args :=
  { profile := Profile.cpu, environment := Envt.priv, rebuild := false, resetDb := false }

def stopCmd (profile : Profile) : List String :=
  ["docker", "compose", "-p", "localai"] ++
  (if profile ≠ Profile.none then ["--profile", profileStr profile] else []) ++
  ["-f", "docker-compose.yml", "down"]

def startSupabaseCmd (environment : Envt) (rebuild : Bool) : List String :=
  ["docker", "compose", "-p", "localai", "-f", "supabase/docker/docker-compose.yml"] ++
  (if environment = Envt.pub then ["-f", "docker-compose.override.public.supabase.yml"] else []) ++
  ["up", "-d"] ++ (if rebuild then ["--build"] else [])

def startLocalAiCmd (profile : Profile) (environment : Envt) (rebuild : Bool) : List String :=
  ["docker", "compose", "-p", "localai"] ++
  (if profile ≠ Profile.none then ["--profile", profileStr profile] else []) ++
  ["-f", "docker-compose.yml"] ++
  (if environment = Envt.priv then ["-f", "docker-compose.override.private.yml"] else []) ++
  (if environment = Envt.pub then ["-f", "docker-compose.override.public.yml"] else []) ++
  ["up", "-d"] ++ (if rebuild then ["--build"] else [])

def stop_existing_containers (w : World) (fs : FS) (profile : Profile) : StepRes :=
  run_command w fs (stopCmd profile)

def start_supabase (w : World) (fs : FS) (environment : Envt) (rebuild : Bool) : StepRes :=
  run_command w fs (startSupabaseCmd environment rebuild)

def start_local_ai (w : World) (fs : FS) (profile : Profile) (environment : Envt)
    (rebuild : Bool) : StepRes :=
  run_command w fs (startLocalAiCmd profile environment rebuild)

/-! #### `generate_searxng_secret_key` -/

/-- How the SearXNG settings step ended. -/
inductive SearxOutcome
  | noBase
  | copyFailed
  | substituted
  | fallback
deriving DecidableEq

def settingsPath : String := "searxng/settings.yml"

def settingsBasePath : String := "searxng/settings-base.yml"

def opensslCmd : List String := ["openssl", "rand", "-hex", "32"]

/-- The PowerShell script block used on Windows. -/
def psScript : String :=
  "$randomBytes = New-Object byte[] 32; " ++
  "(New-Object Security.Cryptography.RNGCryptoServiceProvider).GetBytes($randomBytes); " ++
  "$secretKey = -join ($randomBytes | ForEach-Object \x7b \"\x7b0:x2\x7d\" -f $_ \x7d); " ++
  "(Get-Content searxng/settings.yml) -replace \x27ultrasecretkey\x27, $secretKey | Set-Content searxng/settings.yml"

def psCommandArgv : List String := ["powershell", "-Command", psScript]

def sedExprFor (key : List Char) : String :=
  "s|ultrasecretkey|" ++ String.mk key ++ "|g"

/-- The platform dispatch inside the `try` block: one substitution attempt,
returning the invocations issued and the outcome (any raised error is caught
and turned into the manual-fallback instructions). -/
def searxSubstitute (w : World) : List Event × SearxOutcome :=
  match w.platform with
  | Plat.windows =>
    if w.cmdOk psCommandArgv then
      ([Event.cmd psCommandArgv], SearxOutcome.substituted)
    else
      ([Event.cmd psCommandArgv], SearxOutcome.fallback)
  | Plat.darwin =>
    match w.opensslOut with
    | Except.error _ => ([Event.cmd opensslCmd], SearxOutcome.fallback)
    | Except.ok key =>
      let sedArgv := ["sed", "-i", "", sedExprFor key, settingsPath]
      if w.cmdOk sedArgv then
        ([Event.cmd opensslCmd, Event.cmd sedArgv], SearxOutcome.substituted)
      else
        ([Event.cmd opensslCmd, Event.cmd sedArgv], SearxOutcome.fallback)
  | Plat.linux =>
    match w.opensslOut with
    | Except.error _ => ([Event.cmd opensslCmd], SearxOutcome.fallback)
    | Except.ok key =>
      let sedArgv := ["sed", "-i", sedExprFor key, settingsPath]
      if w.cmdOk sedArgv then
        ([Event.cmd opensslCmd, Event.cmd sedArgv], SearxOutcome.substituted)
      else
        ([Event.cmd opensslCmd, Event.cmd sedArgv], SearxOutcome.fallback)

/-- Result of `generate_searxng_secret_key` (the function catches every
error it can encounter, so there is no failure flag). -/
structure SearxRes where
  fs : FS
  tr : List Event
  outcome : SearxOutcome

/-- `generate_searxng_secret_key`: seed `settings.yml` from
`settings-base.yml` when missing (errors caught and logged, then early
return), then attempt the platform-specific secret-key substitution (errors
caught, manual instructions printed).  The in-place edit performed by the
external tool is not modelled. -/
def generate_searxng_secret_key (w : World) (fs : FS) : SearxRes :=
  if fs settingsBasePath = none then
    { fs := fs, tr := [], outcome := SearxOutcome.noBase }
  else if fs settingsPath = none then
    match readFile fs settingsBasePath with
    | some baseContent =>
      if w.copyfileOk settingsBasePath settingsPath then
        let fs1 : FS := fun p =>
          if p = settingsPath then some (Node.file baseContent) else fs p
        let r := searxSubstitute w
        { fs := fs1, tr := r.1, outcome := r.2 }
      else { fs := fs, tr := [], outcome := SearxOutcome.copyFailed }
    | none => { fs := fs, tr := [], outcome := SearxOutcome.copyFailed }
  else
    let r := searxSubstitute w
    { fs := fs, tr := r.1, outcome := r.2 }

/-! #### `check_and_fix_docker_compose_for_searxng` -/

/-- The active form of the hardening directive. -/
def capActive : List Char := "cap_drop: - ALL".toList

/-- The commented-out form of the hardening directive. -/
def capCommented : List Char :=
  "# cap_drop: - ALL  # Temporarily commented out for first run".toList

/-- The toggle applied to the manifest content (lines 288-305 of the
source): comment out on first run, restore otherwise, in each case only when
the trigger text occurs. -/
def toggleCapDrop (is_first_run : Bool) (content : List Char) : List Char :=
  if is_first_run = true ∧ occursB capActive content = true then
    replaceAll capActive capCommented content
  else if is_first_run = false ∧ occursB capCommented content = true then
    replaceAll capCommented capActive content
  else content

def dockerPsCmd : List String :=
  ["docker", "ps", "--filter", "name=searxng", "--format", "\x7b\x7b.Names\x7d\x7d"]

def dockerExecCmd (name : List Char) : List String :=
  ["docker", "exec", String.mk name, "sh", "-c",
   "[ -f /etc/searxng/uwsgi.ini ] && echo \x27found\x27 || echo \x27not_found\x27"]

/-- The first-run determination (lines 254-286): any error while querying the
container runtime or execing into the container yields `true` (first run);
otherwise first run is the absence of `"found"` in the probe's stdout.
Returns the determination and the invocations issued. -/
def searxngFirstRun (w : World) : Bool × List Event :=
  match w.dockerPs with
  | Except.error _ => (true, [Event.cmd dockerPsCmd])
  | Except.ok out =>
    match (splitNl (pyStrip out)).find? (fun n => !n.isEmpty) with
    | Option.none => (true, [Event.cmd dockerPsCmd])
    | some name =>
      match w.dockerExec name with
      | Except.error _ => (true, [Event.cmd dockerPsCmd, Event.cmd (dockerExecCmd name)])
      | Except.ok execOut =>
        (!(occursB "found".toList execOut),
         [Event.cmd dockerPsCmd, Event.cmd (dockerExecCmd name)])

def composePath : String := "docker-compose.yml"

/-- `check_and_fix_docker_compose_for_searxng`: missing manifest is only a
warning; everything else is wrapped in `try`/`except`, so the step always
succeeds.  (Writing back unchanged content is extensionally the same as not
writing.) -/
def check_and_fix_docker_compose_for_searxng (w : World) (fs : FS) : StepRes :=
  match fs composePath with
  | some (Node.file content) =>
    let d := searxngFirstRun w
    { ok := true,
      fs := fun p =>
        if p = composePath then some (Node.file (toggleCapDrop d.1 content)) else fs p,
      tr := d.2 }
  | some Node.dir => { ok := true, fs := fs, tr := [] }
  | none => { ok := true, fs := fs, tr := [] }

/-! #### `main` -/
/-- Fail-fast sequencing: run the continuation only when the previous step
succeeded, accumulating the trace. -/
def andThen (r : StepRes) (f : FS → StepRes) : StepRes :=
  if r.ok then
    let r2 := f r.fs
    { ok := r2.ok, fs := r2.fs, tr := r.tr ++ r2.tr }
  else r

/-- `main`: the linear sequence of steps with default fail-fast behaviour.
The trace records external invocations and the fixed 15-second sleep. -/
def main (args : Args) (w : World) (fs : FS) : StepRes :=
  let u := update_env_secrets w.secretEntropy fs
  let r1 : StepRes := { ok := u.ok, fs := u.fs, tr := [] }
  let r2 := andThen r1 (fun fs1 =>
    { ok := true,
      fs := if args.resetDb then (clean_supabase_database w fs1).1 else fs1,
      tr := [] })
  let r3 := andThen r2 (clone_supabase_repo w)
  let r4 := andThen r3 (prepare_supabase_env w)
  let r5 := andThen r4 (fun fs4 =>
    let s := generate_searxng_secret_key w fs4
    { ok := true, fs := s.fs, tr := s.tr })
  let r6 := andThen r5 (check_and_fix_docker_compose_for_searxng w)
  let r7 := andThen r6 (fun fs6 => stop_existing_containers w fs6 args.profile)
  let r8 := andThen r7 (fun fs7 => start_supabase w fs7 args.environment args.rebuild)
  let r8s := andThen r8 (fun fs8 => { ok := true, fs := fs8, tr := [Event.sleep 15] })
  andThen r8s (fun fs8 => start_local_ai w fs8 args.profile args.environment args.rebuild)

/-! Named intermediate states of a `main` run (for stating run lemmas). -/

/-- The secret-provisioning step of the run. -/
def mainU (w : World) (fs : FS) : EnvUpdate := update_env_secrets w.secretEntropy fs

/-- Filesystem after the optional database reset. -/
def mainFs1 (args : Args) (w : World) (fs : FS) : FS :=
  if args.resetDb then (clean_supabase_database w (mainU w fs).fs).1 else (mainU w fs).fs

/-- The manifest-sync step of the run. -/
def mainClone (args : Args) (w : World) (fs : FS) : StepRes :=
  clone_supabase_repo w (mainFs1 args w fs)

/-- The config-propagation step of the run. -/
def mainPrep (args : Args) (w : World) (fs : FS) : StepRes :=
  prepare_supabase_env w (mainClone args w fs).fs

/-- The settings step of the run. -/
def mainSearx (args : Args) (w : World) (fs : FS) : SearxRes :=
  generate_searxng_secret_key w (mainPrep args w fs).fs

/-- The capability-toggle step of the run. -/
def mainCheck (args : Args) (w : World) (fs : FS) : StepRes :=
  check_and_fix_docker_compose_for_searxng w (mainSearx args w fs).fs

/-- The teardown step of the run. -/
def mainStop (args : Args) (w : World) (fs : FS) : StepRes :=
  stop_existing_containers w (mainCheck args w fs).fs args.profile

/-- The first start invocation of the run. -/
def mainSupa (args : Args) (w : World) (fs : FS) : StepRes :=
  start_supabase w (mainStop args w fs).fs args.environment args.rebuild

/-- The second start invocation of the run. -/
def mainLocal (args : Args) (w : World) (fs : FS) : StepRes :=
  start_local_ai w (mainSupa args w fs).fs args.profile args.environment args.rebuild


/-! ### Derived definitions used in the statements -/

/-- The unconditional replacement fold: `applyReps` without the per-entry
flags (the conditional is immaterial for the content, since replacing an
absent pattern is the identity). -/
def foldRep (rs : List (List Char × List Char)) (c : List Char) : List Char :=
  rs.foldl (fun acc p => replaceAll p.1 p.2 acc) c

/-- An event is a `docker compose` invocation. -/
def isComposeEvent : Event → Bool
  | Event.cmd argv => argv.take 2 == ["docker", "compose"]
  | Event.sleep _ => false

/-- The environment file is line-structured: every line in which some
placeholder entry occurs consists exactly of that entry (as in the shipped
default `.env`). -/
def cleanEnv (c : List Char) : Prop :=
  ∀ l ∈ splitNl c, ∀ o ∈ envPlaceholders, occursB o l = true → l = o

/-- The default environment file: the ten placeholder entries, one per
line. -/
def defaultEnvContent : List Char := joinNl envPlaceholders

/-- Adversarial environment-file content for the idempotence counterexample:
the CLICKHOUSE placeholder followed immediately (same line) by the text
`_PASSWORD=super-secret-key-1`. -/
def advEnvContent : List Char :=
  "CLICKHOUSE_PASSWORD=super-secret-key-1_PASSWORD=super-secret-key-1".toList

/-- Adversarial but perfectly possible entropy: the generated CLICKHOUSE
password is 22 letters `a` followed by the letters `CLICKHOUSE`. -/
def advEntropy : Nat → Nat → Nat := fun call i =>
  if call = 5 then
    (if i < 22 then 0 else [28, 37, 34, 28, 36, 33, 40, 46, 44, 30].getD (i - 22) 0)
  else 0

/-- A benign base world for concrete instantiations. -/
def wBase : World :=
  { platform := Plat.linux
    now := 0
    stdinResponse := []
    secretEntropy := fun _ _ => 0
    cmdOk := fun _ => true
    opensslOut := Except.ok "0f".toList
    copyfileOk := fun _ _ => true
    dockerPs := Except.ok []
    dockerExec := fun _ => Except.error () }

/-- A fresh working directory: default environment file with all
placeholders, no vendored directory, base settings template, no settings
file, manifest with the active hardening directive. -/
def fsFresh : FS := fun p =>
  if p = ".env" then some (Node.file defaultEnvContent)
  else if p = "searxng/settings-base.yml" then some (Node.file "x".toList)
  else if p = "docker-compose.yml" then some (Node.file capActive)
  else Option.none

/-- A minimal filesystem for trace-shape witnesses: tiny env file without
placeholders, vendored directory present, no settings template, no
manifest. -/
def fsTiny : FS := fun p =>
  if p = ".env" then some (Node.file "x".toList)
  else if p = "supabase" then some Node.dir
  else Option.none

/-- A filesystem with only the database data directory. -/
def fsDb : FS := fun p =>
  if p = dbDataPath then some Node.dir else Option.none

/-! ### Lemmas about the string primitives -/

theorem pfx_refl (l : List Char) : pfx l l = true := by
  induction l with
  | nil => rfl
  | cons c s ih => simp [pfx, ih]

theorem pfx_length {p s : List Char} (h : pfx p s = true) : p.length ≤ s.length := by
  induction p generalizing s with
  | nil => simp
  | cons a as ih =>
    cases s with
    | nil => simp [pfx] at h
    | cons b bs =>
      simp only [pfx, Bool.and_eq_true] at h
      simpa [List.length_cons, Nat.succ_le_succ_iff] using ih h.2

theorem pfx_mem {p s : List Char} (h : pfx p s = true) {x : Char} (hx : x ∈ p) : x ∈ s := by
  induction p generalizing s with
  | nil => simp at hx
  | cons a as ih =>
    cases s with
    | nil => simp [pfx] at h
    | cons b bs =>
      simp only [pfx, Bool.and_eq_true, beq_iff_eq] at h
      rcases List.mem_cons.1 hx with rfl | hx'
      · simp [h.1]
      · exact List.mem_cons_of_mem _ (ih h.2 hx')

theorem occursB_subset {p s : List Char} (h : occursB p s = true)
    {x : Char} (hx : x ∈ p) : x ∈ s := by
  induction s with
  | nil =>
    simp only [occursB, List.isEmpty_iff] at h
    subst h; simp at hx
  | cons c t ih =>
    simp only [occursB, Bool.or_eq_true] at h
    rcases h with h | h
    · exact pfx_mem h hx
    · exact List.mem_cons_of_mem _ (ih h)

/-- If some character of `pat` is missing from `s`, then `pat` does not occur
in `s`. -/
theorem occursB_eq_false_of_missing {p s : List Char} {x : Char}
    (hx : x ∈ p) (hs : x ∉ s) : occursB p s = false := by
  cases h : occursB p s with
  | false => rfl
  | true => exact absurd (occursB_subset h hx) hs

theorem replaceAll_nil (pat rep : List Char) : replaceAll pat rep [] = [] := rfl

/-- The fuel argument of `replaceAllGo` is irrelevant above the list length. -/
theorem replaceAllGo_fuel (pat rep : List Char) :
    ∀ fuel s, List.length s ≤ fuel →
      replaceAllGo pat rep fuel s = replaceAllGo pat rep s.length s := by
  intro fuel
  induction fuel using Nat.strong_induction_on with
  | _ fuel ih =>
    intro s h
    cases fuel with
    | zero =>
      cases s with
      | nil => rfl
      | cons c t => simp at h
    | succ n =>
      cases s with
      | nil => rfl
      | cons c t =>
        simp only [List.length_cons] at h ⊢
        rw [replaceAllGo, replaceAllGo]
        by_cases hc : pat ≠ [] ∧ pfx pat (c :: t) = true
        · rw [if_pos hc, if_pos hc]
          have h1 : (t.drop (pat.length - 1)).length ≤ t.length := by
            simp only [List.length_drop]; omega
          rw [ih n (Nat.lt_succ_self n) _ (le_trans h1 (Nat.le_of_succ_le_succ h)),
            ih t.length (Nat.lt_succ_of_le (Nat.le_of_succ_le_succ h)) _ h1]
        · rw [if_neg hc, if_neg hc,
            ih n (Nat.lt_succ_self n) t (Nat.le_of_succ_le_succ h)]

/-- Unfolding equation of `replaceAll` when the pattern matches at the head. -/
theorem replaceAll_fire {pat : List Char} (rep : List Char) (c : Char) (s : List Char)
    (hne : pat ≠ []) (hp : pfx pat (c :: s) = true) :
    replaceAll pat rep (c :: s) =
      rep ++ replaceAll pat rep (s.drop (pat.length - 1)) := by
  show replaceAllGo pat rep ((c :: s).length) (c :: s) = _
  rw [List.length_cons, replaceAllGo, if_pos ⟨hne, hp⟩]
  rw [replaceAllGo_fuel pat rep s.length _ (by simp only [List.length_drop]; omega)]
  rfl

/-- Unfolding equation of `replaceAll` when the pattern does not match at the
head. -/
theorem replaceAll_skip {pat : List Char} (rep : List Char) (c : Char) (s : List Char)
    (h : ¬(pat ≠ [] ∧ pfx pat (c :: s) = true)) :
    replaceAll pat rep (c :: s) = c :: replaceAll pat rep s := by
  show replaceAllGo pat rep ((c :: s).length) (c :: s) = _
  rw [List.length_cons, replaceAllGo, if_neg h]
  rfl

/-- Induction principle following the recursion structure of `replaceAll`. -/
theorem replaceAll_ind (pat : List Char) (P : List Char → Prop)
    (h0 : P [])
    (hfire : ∀ c s, pat ≠ [] → pfx pat (c :: s) = true →
      P (s.drop (pat.length - 1)) → P (c :: s))
    (hskip : ∀ c s, ¬(pat ≠ [] ∧ pfx pat (c :: s) = true) → P s → P (c :: s)) :
    ∀ s, P s := by
  have H : ∀ n s, List.length s ≤ n → P s := by
    intro n
    induction n with
    | zero =>
      intro s h
      cases s with
      | nil => exact h0
      | cons c t => simp at h
    | succ n ih =>
      intro s h
      cases s with
      | nil => exact h0
      | cons c t =>
        simp only [List.length_cons] at h
        by_cases hc : pat ≠ [] ∧ pfx pat (c :: t) = true
        · refine hfire c t hc.1 hc.2 (ih _ ?_)
          simp only [List.length_drop]
          omega
        · exact hskip c t hc (ih t (Nat.le_of_succ_le_succ h))
  exact fun s => H s.length s (le_refl _)

/-- A string in which the pattern does not occur is left unchanged by
`replaceAll`. -/
theorem replaceAll_of_not_occurs {pat : List Char} (rep : List Char) :
    ∀ {s : List Char}, occursB pat s = false → replaceAll pat rep s = s := by
  have : ∀ s, occursB pat s = false → replaceAll pat rep s = s := by
    refine replaceAll_ind pat _ (fun _ => rfl) ?_ ?_
    · intro c s _ hp _ h
      simp only [occursB, Bool.or_eq_false_iff] at h
      simp [hp] at h
    · intro c s hns ih h
      simp only [occursB, Bool.or_eq_false_iff] at h
      rw [replaceAll_skip _ _ _ hns, ih h.2]
  exact fun {s} => this s

/-- Replacing the pattern inside the pattern itself yields the replacement. -/
theorem replaceAll_self {pat : List Char} (rep : List Char) (h : pat ≠ []) :
    replaceAll pat rep pat = rep := by
  cases pat with
  | nil => exact absurd rfl h
  | cons c s =>
    rw [replaceAll_fire rep c s (by simp) (pfx_refl _)]
    rw [List.length_cons, Nat.add_sub_cancel, List.drop_length, replaceAll_nil,
      List.append_nil]

/-- A pattern avoiding a separator char matches at the start of
`a ++ sep :: b` iff it matches at the start of `a`. -/
theorem pfx_append_sep {sep : Char} {pat : List Char} (hsep : sep ∉ pat) :
    ∀ (a b : List Char), pfx pat (a ++ sep :: b) = pfx pat a := by
  induction pat with
  | nil => intro a b; cases a <;> rfl
  | cons p ps ih =>
    intro a b
    cases a with
    | nil =>
      have hps : p ≠ sep := fun h => hsep (by simp [h])
      simp only [List.nil_append, pfx]
      have : (p == sep) = false := by simp [hps]
      simp [this]
    | cons x a' =>
      show (p == x && pfx ps (a' ++ sep :: b)) = (p == x && pfx ps a')
      rw [ih (fun h => hsep (List.mem_cons_of_mem _ h)) a' b]

/-- `replaceAll` distributes across a separator character that does not occur
in the pattern. -/
theorem replaceAll_append_sep {sep : Char} {pat : List Char} (rep : List Char)
    (hsep : sep ∉ pat) :
    ∀ (a b : List Char),
      replaceAll pat rep (a ++ sep :: b) =
        replaceAll pat rep a ++ sep :: replaceAll pat rep b := by
  have main : ∀ n a b, List.length a ≤ n →
      replaceAll pat rep (a ++ sep :: b) =
        replaceAll pat rep a ++ sep :: replaceAll pat rep b := by
    intro n
    induction n using Nat.strong_induction_on with
    | _ n ih =>
      intro a b ha
      cases a with
      | nil =>
        simp only [List.nil_append, replaceAll_nil]
        have hskip : ¬(pat ≠ [] ∧ pfx pat (sep :: b) = true) := by
          rintro ⟨hne, hp⟩
          cases pat with
          | nil => exact hne rfl
          | cons p ps =>
            simp only [pfx, Bool.and_eq_true, beq_iff_eq] at hp
            exact hsep (by simp [hp.1])
        rw [replaceAll_skip rep sep b hskip]
      | cons c a' =>
        have hlen : a'.length + 1 ≤ n := by simpa using ha
        have hgoal : (c :: a') ++ sep :: b = c :: (a' ++ sep :: b) := rfl
        rw [hgoal]
        by_cases hc : pat ≠ [] ∧ pfx pat (c :: a') = true
        · have hp2 : pfx pat (c :: (a' ++ sep :: b)) = true := by
            have h := pfx_append_sep hsep (c :: a') b
            rw [List.cons_append] at h
            rw [h]; exact hc.2
          have h1 : 1 ≤ pat.length := by
            rcases hc with ⟨hne, -⟩
            cases pat with
            | nil => exact absurd rfl hne
            | cons _ _ => simp
          have hplen : pat.length ≤ a'.length + 1 := pfx_length hc.2
          rw [replaceAll_fire rep c (a' ++ sep :: b) hc.1 hp2,
            replaceAll_fire rep c a' hc.1 hc.2]
          rw [List.drop_append_of_le_length (by omega)]
          have hrec := ih a'.length (by omega) (a'.drop (pat.length - 1)) b
            (by simp only [List.length_drop]; omega)
          rw [hrec, List.append_assoc]
        · have hp2 : ¬(pat ≠ [] ∧ pfx pat (c :: (a' ++ sep :: b)) = true) := by
            rintro ⟨hne, hp⟩
            have h := pfx_append_sep hsep (c :: a') b
            rw [List.cons_append] at h
            rw [h] at hp
            exact hc ⟨hne, hp⟩
          rw [replaceAll_skip rep c (a' ++ sep :: b) hp2,
            replaceAll_skip rep c a' hc]
          rw [ih a'.length (by omega) a' b (le_refl _)]
          rfl
  exact fun a b => main a.length a b (le_refl _)

/-- `occursB` across a separator character not occurring in the pattern. -/
theorem occursB_append_sep {sep : Char} {pat : List Char} (hsep : sep ∉ pat)
    (hne : pat ≠ []) :
    ∀ (a b : List Char),
      occursB pat (a ++ sep :: b) = (occursB pat a || occursB pat b) := by
  intro a b
  induction a with
  | nil =>
    simp only [List.nil_append]
    have h0 : occursB pat [] = false := by
      cases pat with
      | nil => exact absurd rfl hne
      | cons _ _ => rfl
    rw [h0, Bool.false_or]
    show (pfx pat (sep :: b) || occursB pat b) = occursB pat b
    have : pfx pat (sep :: b) = false := by
      cases pat with
      | nil => exact absurd rfl hne
      | cons p ps =>
        simp only [pfx]
        have : (p == sep) = false := by
          simp only [beq_eq_false_iff_ne, ne_eq]
          intro h; exact hsep (by simp [h])
        simp [this]
    simp [this]
  | cons c a' ih =>
    show (pfx pat (c :: (a' ++ sep :: b)) || occursB pat (a' ++ sep :: b)) = _
    rw [show c :: (a' ++ sep :: b) = (c :: a') ++ sep :: b from rfl,
      pfx_append_sep hsep, ih]
    show (pfx pat (c :: a') || (occursB pat a' || occursB pat b)) = _
    cases hpf : pfx pat (c :: a') <;> simp [occursB, hpf]

/-- Every character of the output of `replaceAll` comes from the replacement
or from the input. -/
theorem mem_replaceAll {pat rep : List Char} {x : Char} :
    ∀ {s : List Char}, x ∈ replaceAll pat rep s → x ∈ rep ∨ x ∈ s := by
  have : ∀ s : List Char, x ∈ replaceAll pat rep s → x ∈ rep ∨ x ∈ s := by
    refine replaceAll_ind pat _ ?_ ?_ ?_
    · intro h; rw [replaceAll_nil] at h; simp at h
    · intro c s hne hp ih h
      rw [replaceAll_fire rep c s hne hp] at h
      rcases List.mem_append.1 h with h | h
      · exact Or.inl h
      · rcases ih h with h | h
        · exact Or.inl h
        · exact Or.inr (List.mem_cons_of_mem _ (List.mem_of_mem_drop h))
    · intro c s hns ih h
      rw [replaceAll_skip rep c s hns] at h
      rcases List.mem_cons.1 h with rfl | h
      · exact Or.inr (List.mem_cons_self _ _)
      · rcases ih h with h | h
        · exact Or.inl h
        · exact Or.inr (List.mem_cons_of_mem _ h)
  exact fun {s} => this s

/-- If the pattern occurs, then every character of the replacement occurs in
the output of `replaceAll`. -/
theorem mem_rep_replaceAll {pat rep : List Char} {x : Char} (hx : x ∈ rep)
    (hne : pat ≠ []) :
    ∀ {s : List Char}, occursB pat s = true → x ∈ replaceAll pat rep s := by
  have : ∀ s : List Char, occursB pat s = true → x ∈ replaceAll pat rep s := by
    intro s
    induction s with
    | nil =>
      intro h
      simp only [occursB, List.isEmpty_iff] at h
      exact absurd h hne
    | cons c t ih =>
      intro h
      by_cases hp : pfx pat (c :: t) = true
      · rw [replaceAll_fire rep c t hne hp]
        exact List.mem_append.2 (Or.inl hx)
      · have ht : occursB pat t = true := by
          simp only [occursB, Bool.or_eq_true] at h
          rcases h with h | h
          · exact absurd h hp
          · exact h
        rw [replaceAll_skip rep c t (by rintro ⟨-, hp'⟩; exact hp hp')]
        exact List.mem_cons_of_mem _ (ih ht)
  exact fun {s} => this s

/-! ### `splitNl` / `joinNl` lemmas -/

theorem splitNl_ne_nil (s : List Char) : splitNl s ≠ [] := by
  cases s with
  | nil => simp [splitNl]
  | cons c t =>
    rw [splitNl]
    by_cases hc : c = '\n'
    · simp [hc]
    · rw [if_neg hc]
      cases h : splitNl t <;> simp

theorem joinNl_splitNl (s : List Char) : joinNl (splitNl s) = s := by
  induction s with
  | nil => rfl
  | cons c t ih =>
    rw [splitNl]
    by_cases hc : c = '\n'
    · rw [if_pos hc]
      cases h : splitNl t with
      | nil => exact absurd h (splitNl_ne_nil t)
      | cons l ls =>
        rw [joinNl]
        rw [← h, ih, hc]
        rfl
    · rw [if_neg hc]
      cases h : splitNl t with
      | nil => exact absurd h (splitNl_ne_nil t)
      | cons l ls =>
        cases ls with
        | nil =>
          rw [joinNl]
          have : joinNl [l] = l := rfl
          have ht : t = l := by rw [← ih, h]; rfl
          rw [ht]
        | cons l' ls' =>
          rw [joinNl]
          have ht : joinNl (l :: l' :: ls') = t := by rw [← h, ih]
          rw [show (c :: l) ++ '\n' :: joinNl (l' :: ls') = c :: (l ++ '\n' :: joinNl (l' :: ls')) from rfl]
          rw [show l ++ '\n' :: joinNl (l' :: ls') = joinNl (l :: l' :: ls') from rfl, ht]

theorem splitNl_nlFree {s : List Char} : ∀ l ∈ splitNl s, '\n' ∉ l := by
  induction s with
  | nil =>
    intro l hl
    simp [splitNl] at hl
    simp [hl]
  | cons c t ih =>
    intro l hl
    rw [splitNl] at hl
    by_cases hc : c = '\n'
    · rw [if_pos hc] at hl
      rcases List.mem_cons.1 hl with rfl | hl'
      · simp
      · exact ih l hl'
    · rw [if_neg hc] at hl
      cases h : splitNl t with
      | nil => exact absurd h (splitNl_ne_nil t)
      | cons l0 ls =>
        rw [h] at hl
        rcases List.mem_cons.1 hl with rfl | hl'
        · intro hmem
          rcases List.mem_cons.1 hmem with h' | h'
          · exact hc h'.symm
          · exact ih l0 (h ▸ List.mem_cons_self _ _) h'
        · exact ih l (h ▸ List.mem_cons_of_mem _ hl')

theorem splitNl_of_nlFree {l : List Char} (h : '\n' ∉ l) : splitNl l = [l] := by
  induction l with
  | nil => rfl
  | cons c t ih =>
    rw [splitNl, if_neg (fun hc => h (by simp [hc]))]
    rw [ih (fun hm => h (List.mem_cons_of_mem _ hm))]

theorem splitNl_append_nl {a : List Char} (h : '\n' ∉ a) (b : List Char) :
    splitNl (a ++ '\n' :: b) = a :: splitNl b := by
  induction a with
  | nil =>
    rw [List.nil_append, splitNl, if_pos rfl]
  | cons c a' ih =>
    rw [show (c :: a') ++ '\n' :: b = c :: (a' ++ '\n' :: b) from rfl]
    rw [splitNl, if_neg (fun hc => h (by simp [hc]))]
    rw [ih (fun hm => h (List.mem_cons_of_mem _ hm))]

theorem splitNl_joinNl {ls : List (List Char)} (h : ∀ l ∈ ls, '\n' ∉ l)
    (hne : ls ≠ []) : splitNl (joinNl ls) = ls := by
  induction ls with
  | nil => exact absurd rfl hne
  | cons l rest ih =>
    cases rest with
    | nil =>
      rw [show joinNl [l] = l from rfl]
      exact splitNl_of_nlFree (h l (List.mem_cons_self _ _))
    | cons l' rest' =>
      rw [joinNl, splitNl_append_nl (h l (List.mem_cons_self _ _))]
      rw [ih (fun x hx => h x (List.mem_cons_of_mem _ hx)) (by simp)]

theorem replaceAll_joinNl {pat : List Char} (rep : List Char) (hpat : '\n' ∉ pat) :
    ∀ ls : List (List Char),
      replaceAll pat rep (joinNl ls) = joinNl (ls.map (replaceAll pat rep)) := by
  intro ls
  induction ls with
  | nil => rfl
  | cons l rest ih =>
    cases rest with
    | nil => rfl
    | cons l' rest' =>
      rw [joinNl, replaceAll_append_sep rep hpat, ih]
      rfl

theorem occursB_joinNl {pat : List Char} (hpat : '\n' ∉ pat) (hne : pat ≠ []) :
    ∀ ls : List (List Char),
      occursB pat (joinNl ls) = ls.any (occursB pat) := by
  intro ls
  induction ls with
  | nil =>
    show occursB pat [] = false
    cases pat with
    | nil => exact absurd rfl hne
    | cons _ _ => rfl
  | cons l rest ih =>
    cases rest with
    | nil =>
      show occursB pat l = (occursB pat l || List.any [] (occursB pat))
      simp
    | cons l' rest' =>
      rw [joinNl, occursB_append_sep hpat hne, ih]
      rfl


/-! ### Program-level lemmas -/

theorem pfx_append_self (p b : List Char) : pfx p (p ++ b) = true := by
  induction p with
  | nil => rfl
  | cons c t ih => simp [pfx, ih]

/-- A pattern occurs in any string that contains it literally. -/
theorem occursB_sandwich (p : List Char) : ∀ (a b : List Char),
    occursB p (a ++ p ++ b) = true := by
  intro a b
  induction a with
  | nil =>
    rw [List.nil_append]
    cases p with
    | nil =>
      cases b with
      | nil => rfl
      | cons c t =>
        show (pfx [] (c :: t) || occursB [] t) = true
        simp [pfx]
    | cons x xs =>
      have h := pfx_append_self (x :: xs) b
      show (pfx (x :: xs) ((x :: xs) ++ b) || occursB (x :: xs) (xs ++ b)) = true
      rw [h]
      rfl
  | cons c a' ih =>
    show (pfx p (c :: (a' ++ p ++ b)) || occursB p (a' ++ p ++ b)) = true
    rw [ih]
    simp

/-- When the pattern occurs, the output of `replaceAll` literally contains
the replacement. -/
theorem replaceAll_contains_rep {pat : List Char} (rep : List Char) (hne : pat ≠ []) :
    ∀ {s : List Char}, occursB pat s = true →
      ∃ a b, replaceAll pat rep s = a ++ rep ++ b := by
  have : ∀ s, occursB pat s = true → ∃ a b, replaceAll pat rep s = a ++ rep ++ b := by
    intro s
    induction s with
    | nil =>
      intro h
      simp only [occursB, List.isEmpty_iff] at h
      exact absurd h hne
    | cons c t ih =>
      intro h
      by_cases hp : pfx pat (c :: t) = true
      · refine ⟨[], replaceAll pat rep (t.drop (pat.length - 1)), ?_⟩
        rw [replaceAll_fire rep c t hne hp]
        simp
      · have ht : occursB pat t = true := by
          simp only [occursB, Bool.or_eq_true] at h
          rcases h with h | h
          · exact absurd h hp
          · exact h
        rcases ih ht with ⟨a, b, hab⟩
        refine ⟨c :: a, b, ?_⟩
        rw [replaceAll_skip rep c t (by rintro ⟨-, hp'⟩; exact hp hp'), hab]
        rfl
  exact fun {s} => this s

/-- The occurrence of the replacement after a fired `replaceAll`. -/
theorem occursB_rep_of_fired {pat : List Char} (rep : List Char) (hne : pat ≠ [])
    {s : List Char} (h : occursB pat s = true) :
    occursB rep (replaceAll pat rep s) = true := by
  rcases replaceAll_contains_rep rep hne h with ⟨a, b, hab⟩
  rw [hab]
  exact occursB_sandwich rep a b

/-! #### `applyReps` and `foldRep` -/

theorem applyReps_fst (rs : List (List Char × List Char)) :
    ∀ c, (applyReps rs c).1 = foldRep rs c := by
  induction rs with
  | nil => intro c; rfl
  | cons p rs ih =>
    intro c
    rcases p with ⟨o, n⟩
    show (applyReps ((o, n) :: rs) c).1 = foldRep rs (replaceAll o n c)
    rw [applyReps]
    by_cases h : occursB o c = true
    · rw [if_pos h]
      exact ih _
    · rw [if_neg h]
      have hf : occursB o c = false := by
        cases hx : occursB o c with
        | false => rfl
        | true => exact absurd hx h
      show (applyReps rs c).1 = _
      rw [ih c, replaceAll_of_not_occurs n hf]

theorem applyReps_none {rs : List (List Char × List Char)} :
    ∀ {c}, (∀ p ∈ rs, occursB p.1 c = false) →
      applyReps rs c = (c, List.replicate rs.length false) := by
  induction rs with
  | nil => intro c _; rfl
  | cons p rs ih =>
    intro c h
    rcases p with ⟨o, n⟩
    have ho : occursB o c = false := h (o, n) (List.mem_cons_self _ _)
    rw [applyReps, if_neg (by rw [ho]; simp)]
    show ((applyReps rs c).1, false :: (applyReps rs c).2) = _
    rw [ih (fun q hq => h q (List.mem_cons_of_mem _ hq))]
    simp [List.replicate_succ]

theorem applyReps_fst_of_no_flag {rs : List (List Char × List Char)} :
    ∀ {c}, (applyReps rs c).2.any id = false → (applyReps rs c).1 = c := by
  induction rs with
  | nil => intro c _; rfl
  | cons p rs ih =>
    intro c h
    rcases p with ⟨o, n⟩
    rw [applyReps] at h ⊢
    by_cases ho : occursB o c = true
    · rw [if_pos ho] at h
      simp at h
    · rw [if_neg ho] at h ⊢
      have : (applyReps rs c).2.any id = false := by
        simpa using h
      exact ih this

theorem foldRep_id {rs : List (List Char × List Char)} :
    ∀ {c}, (∀ p ∈ rs, occursB p.1 c = false) → foldRep rs c = c := by
  induction rs with
  | nil => intro c _; rfl
  | cons p rs ih =>
    intro c h
    rcases p with ⟨o, n⟩
    show foldRep rs (replaceAll o n c) = c
    rw [replaceAll_of_not_occurs n (h (o, n) (List.mem_cons_self _ _))]
    exact ih (fun q hq => h q (List.mem_cons_of_mem _ hq))

theorem foldRep_cons (o n : List Char) (rs : List (List Char × List Char)) (c : List Char) :
    foldRep ((o, n) :: rs) c = foldRep rs (replaceAll o n c) := rfl

theorem foldRep_skip_front {F : List (List Char × List Char)}
    (rest : List (List Char × List Char)) :
    ∀ {l}, (∀ p ∈ F, occursB p.1 l = false) →
      foldRep (F ++ rest) l = foldRep rest l := by
  induction F with
  | nil => intro l _; rfl
  | cons p F ih =>
    intro l h
    rcases p with ⟨o, n⟩
    rw [List.cons_append, foldRep_cons,
      replaceAll_of_not_occurs n (h (o, n) (List.mem_cons_self _ _))]
    exact ih (fun q hq => h q (List.mem_cons_of_mem _ hq))

theorem foldRep_joinNl {rs : List (List Char × List Char)}
    (hnl : ∀ p ∈ rs, '\n' ∉ p.1) :
    ∀ ls, foldRep rs (joinNl ls) = joinNl (ls.map (foldRep rs)) := by
  induction rs with
  | nil =>
    intro ls
    show joinNl ls = joinNl (ls.map (fun l => l))
    rw [List.map_id']
  | cons p rs ih =>
    intro ls
    rcases p with ⟨o, n⟩
    rw [foldRep_cons,
      replaceAll_joinNl n (hnl (o, n) (List.mem_cons_self _ _)) ls,
      ih (fun q hq => hnl q (List.mem_cons_of_mem _ hq)) (ls.map (replaceAll o n)),
      List.map_map]
    rfl

theorem mem_foldRep {rs : List (List Char × List Char)} {x : Char} :
    ∀ {c}, x ∈ foldRep rs c → x ∈ c ∨ ∃ p ∈ rs, x ∈ p.2 := by
  induction rs with
  | nil => intro c h; exact Or.inl h
  | cons p rs ih =>
    intro c h
    rcases p with ⟨o, n⟩
    rw [foldRep_cons] at h
    rcases ih h with h' | ⟨q, hq, hx⟩
    · rcases mem_replaceAll h' with h'' | h''
      · exact Or.inr ⟨(o, n), List.mem_cons_self _ _, h''⟩
      · exact Or.inl h''
    · exact Or.inr ⟨q, List.mem_cons_of_mem _ hq, hx⟩

/-! #### Generator lemmas -/

theorem mem_generate_secret {e : Nat → Nat} {n : Nat} {x : Char}
    (h : x ∈ generate_secret e n) : x ∈ secretAlphabet := by
  rcases List.mem_map.1 h with ⟨i, -, rfl⟩
  have hlt : e i % secretAlphabet.length < secretAlphabet.length :=
    Nat.mod_lt _ (by decide)
  rw [List.getD_eq_getElem?_getD, List.getElem?_eq_getElem hlt, Option.getD_some]
  exact List.getElem_mem _

theorem mem_generate_hex_secret {e : Nat → Nat} {n : Nat} {x : Char}
    (h : x ∈ generate_hex_secret e n) : x ∈ hexDigitsList := by
  rcases List.mem_map.1 h with ⟨i, -, rfl⟩
  have hlt : e i % 16 < hexDigitsList.length := Nat.mod_lt _ (by decide)
  rw [List.getD_eq_getElem?_getD, List.getElem?_eq_getElem hlt, Option.getD_some]
  exact List.getElem_mem _

theorem generate_secret_length (e : Nat → Nat) (n : Nat) :
    (generate_secret e n).length = n := by
  simp [generate_secret]

theorem generate_hex_secret_length (e : Nat → Nat) (n : Nat) :
    (generate_hex_secret e n).length = 2 * n := by
  simp [generate_hex_secret]

/-- No dash in any generated new value. -/
theorem newVal_no_dash {e : Nat → Nat → Nat} :
    ∀ p ∈ envReplacements e, '-' ∉ p.2 := by
  intro p hp
  simp only [envReplacements, List.mem_cons, List.mem_singleton] at hp
  rcases hp with rfl|rfl|rfl|rfl|rfl|rfl|rfl|rfl|rfl|rfl|h
  all_goals try
    (intro hmem
     rcases List.mem_append.1 hmem with h | h
     · revert h; decide
     · first
       | exact absurd (mem_generate_hex_secret h) (by decide)
       | exact absurd (mem_generate_secret h) (by decide))
  cases h

/-- No newline in any generated new value. -/
theorem newVal_no_nl {e : Nat → Nat → Nat} :
    ∀ p ∈ envReplacements e, '\n' ∉ p.2 := by
  intro p hp
  simp only [envReplacements, List.mem_cons, List.mem_singleton] at hp
  rcases hp with rfl|rfl|rfl|rfl|rfl|rfl|rfl|rfl|rfl|rfl|h
  all_goals try
    (intro hmem
     rcases List.mem_append.1 hmem with h | h
     · revert h; decide
     · first
       | exact absurd (mem_generate_hex_secret h) (by decide)
       | exact absurd (mem_generate_secret h) (by decide))
  cases h

/-- Every placeholder entry contains a dash. -/
theorem placeholder_has_dash : ∀ o ∈ envPlaceholders, '-' ∈ o := by decide

/-- No placeholder entry contains a newline, and none is empty. -/
theorem placeholder_no_nl : ∀ o ∈ envPlaceholders, '\n' ∉ o ∧ o ≠ [] := by decide

/-- The keys of the replacement dictionary are the placeholder entries. -/
theorem envReplacements_fst (e : Nat → Nat → Nat) :
    (envReplacements e).map Prod.fst = envPlaceholders := rfl

/-- No placeholder occurs in any freshly generated new value. -/
theorem placeholder_not_in_newVal {e : Nat → Nat → Nat} :
    ∀ o ∈ envPlaceholders, ∀ p ∈ envReplacements e, occursB o p.2 = false := by
  intro o ho p hp
  exact occursB_eq_false_of_missing (placeholder_has_dash o ho) (newVal_no_dash p hp)

/-! ### Claim C2 -/

/-- C2, counterexample: the capability-restriction toggle is NOT idempotent.
With a fixed first-run determination of `true` and a manifest consisting of
the active directive, one application comments the directive out, but a
second application fires again (the commented replacement still contains the
active marker text) and comments it out a second time. -/
theorem claim_C2_counterexample :
    toggleCapDrop true (toggleCapDrop true capActive) ≠
      toggleCapDrop true capActive := by decide

/-- C2 (amended): the toggle is idempotent whenever the substitution does not
fire, i.e. when the trigger text for the given determination is absent from
the manifest; when the substitution fires, a second application with the same
determination can change the manifest again. -/
theorem claim_C2_amended (b : Bool) (c : List Char)
    (h1 : b = true → occursB capActive c = false)
    (h2 : b = false → occursB capCommented c = false) :
    toggleCapDrop b (toggleCapDrop b c) = toggleCapDrop b c := by
  have hfix : toggleCapDrop b c = c := by
    unfold toggleCapDrop
    cases b with
    | true =>
      rw [if_neg, if_neg]
      · rintro ⟨h, -⟩; cases h
      · rintro ⟨-, hocc⟩; rw [h1 rfl] at hocc; cases hocc
    | false =>
      rw [if_neg, if_neg]
      · rintro ⟨-, hocc⟩; rw [h2 rfl] at hocc; cases hocc
      · rintro ⟨h, -⟩; cases h
  rw [hfix, hfix]

/-- C2 witness: concrete no-fire idempotence. -/
theorem claim_C2_amended_witness :
    toggleCapDrop true (toggleCapDrop true "services:".toList) =
      toggleCapDrop true "services:".toList :=
  claim_C2_amended true "services:".toList (fun _ => by decide) (fun h => by cases h)

/-! ### Claim C3 -/

/-- C3, counterexample: after the toggle runs (first-run direction, manifest
containing the active directive), the resulting manifest contains BOTH the
active form and the commented form as substrings, because the commented form
textually contains the active form. -/
theorem claim_C3_counterexample :
    occursB capActive (toggleCapDrop true capActive) = true ∧
    occursB capCommented (toggleCapDrop true capActive) = true := by decide

/-- C3 (amended): after a first-run toggle, the directive never remains in
effective (uncommented) form: every line of the resulting manifest in which
the directive text occurs carries a `#`.  (The literal both-substrings
statement is unsatisfiable as stated, since the commented form contains the
active text as a substring.) -/
theorem claim_C3_amended (c : List Char) :
    ∀ l ∈ splitNl (toggleCapDrop true c), occursB capActive l = true → '#' ∈ l := by
  intro l hl hocc
  by_cases hc : occursB capActive c = true
  · have ht : toggleCapDrop true c = replaceAll capActive capCommented c := by
      unfold toggleCapDrop
      rw [if_pos ⟨rfl, hc⟩]
    rw [ht] at hl
    have hrw : replaceAll capActive capCommented c =
        joinNl ((splitNl c).map (replaceAll capActive capCommented)) := by
      conv_lhs => rw [← joinNl_splitNl c]
      exact replaceAll_joinNl capCommented (by decide) (splitNl c)
    rw [hrw] at hl
    rw [splitNl_joinNl ?hnl ?hne] at hl
    case hnl =>
      intro x hx
      rcases List.mem_map.1 hx with ⟨l0, hl0, rfl⟩
      intro hmem
      rcases mem_replaceAll hmem with h | h
      · revert h; decide
      · exact splitNl_nlFree l0 hl0 h
    case hne =>
      simp [splitNl_ne_nil c]
    rcases List.mem_map.1 hl with ⟨l0, hl0, rfl⟩
    by_cases h0 : occursB capActive l0 = true
    · exact mem_rep_replaceAll (by decide) (by decide) h0
    · have h0' : occursB capActive l0 = false := by
        cases hx : occursB capActive l0 with
        | false => rfl
        | true => exact absurd hx h0
      rw [replaceAll_of_not_occurs capCommented h0', h0'] at hocc
      cases hocc
  · have hc' : occursB capActive c = false := by
      cases hx : occursB capActive c with
      | false => rfl
      | true => exact absurd hx hc
    have ht : toggleCapDrop true c = c := by
      unfold toggleCapDrop
      rw [if_neg (by rintro ⟨-, h⟩; rw [hc'] at h; cases h),
        if_neg (by rintro ⟨h, -⟩; cases h)]
    rw [ht] at hl
    have : occursB capActive c = true := by
      conv_lhs => rw [← joinNl_splitNl c]
      rw [occursB_joinNl (by decide) (by decide)]
      exact List.any_eq_true.2 ⟨l, hl, hocc⟩
    rw [hc'] at this
    cases this

/-- C3 witness: the single line of the toggled one-line manifest is
comment-bearing. -/
theorem claim_C3_amended_witness : '#' ∈ capCommented :=
  claim_C3_amended capActive capCommented (by decide) (by decide)

/-! ### Claim C4 -/

/-- C4, counterexample: the uppercase response `"Y"` is not the exact
lowercase string `"y"`, yet the destructive reset proceeds (the source lowers
and strips the response before comparing), moving the data directory away. -/
theorem claim_C4_counterexample :
    ("Y".toList ≠ "y".toList) ∧
    (clean_supabase_database { wBase with stdinResponse := "Y".toList } fsDb).2 = true ∧
    (clean_supabase_database { wBase with stdinResponse := "Y".toList } fsDb).1 dbDataPath
      = Option.none := by decide

/-- C4 (amended): the data directory is moved to the timestamped backup path
iff it exists and the response, after lower-casing and stripping whitespace,
equals `"y"`; in every other case the entire filesystem is left untouched,
and when the move happens only the data path and the backup path change. -/
theorem claim_C4_amended (w : World) (fs : FS) :
    ((clean_supabase_database w fs).2 = true ↔
      ((fs dbDataPath).isSome ∧ pyStrip (pyLower w.stdinResponse) = ['y'])) ∧
    ((clean_supabase_database w fs).2 = false →
      (clean_supabase_database w fs).1 = fs) ∧
    ((clean_supabase_database w fs).2 = true →
      (clean_supabase_database w fs).1 dbDataPath = Option.none ∧
      (clean_supabase_database w fs).1 (dbDataPath ++ ".backup." ++ toString w.now)
        = fs dbDataPath ∧
      ∀ p, p ≠ dbDataPath → p ≠ dbDataPath ++ ".backup." ++ toString w.now →
        (clean_supabase_database w fs).1 p = fs p) := by
  have hbk : ¬(dbDataPath = dbDataPath ++ ".backup." ++ toString w.now) := by
    intro h
    have hl := congrArg String.length h
    rw [String.length_append, String.length_append] at hl
    have h8 : (".backup." : String).length = 8 := rfl
    omega
  unfold clean_supabase_database
  by_cases hdb : (fs dbDataPath).isSome
  case neg =>
    rw [if_neg hdb]
    refine ⟨by simp [hdb], fun _ => rfl, fun h => by simp at h⟩
  case pos =>
    rw [if_pos hdb]
    by_cases hy : pyStrip (pyLower w.stdinResponse) = ['y']
    · rw [if_pos hy]
      refine ⟨by simp [hdb, hy], fun h => by simp at h, fun _ => ?_⟩
      refine ⟨?_, ?_, ?_⟩
      · show (if dbDataPath = dbDataPath ++ ".backup." ++ toString w.now
            then fs dbDataPath else if dbDataPath = dbDataPath then Option.none
            else fs dbDataPath) = Option.none
        rw [if_neg hbk, if_pos rfl]
      · show (if dbDataPath ++ ".backup." ++ toString w.now =
            dbDataPath ++ ".backup." ++ toString w.now then fs dbDataPath
            else _) = fs dbDataPath
        rw [if_pos rfl]
      · intro p hp1 hp2
        show (if p = dbDataPath ++ ".backup." ++ toString w.now then fs dbDataPath
            else if p = dbDataPath then Option.none else fs p) = fs p
        rw [if_neg hp2, if_neg hp1]
    · rw [if_neg hy]
      refine ⟨by simp [hdb, hy], fun _ => rfl, fun h => by simp at h⟩

/-- C4 witness: a lowered-stripped `"y"` response with the directory present
moves it to the timestamped backup path. -/
theorem claim_C4_amended_witness :
    (clean_supabase_database { wBase with stdinResponse := "y".toList } fsDb).2 = true ∧
    (clean_supabase_database { wBase with stdinResponse := "y".toList } fsDb).1 dbDataPath
      = Option.none ∧
    (clean_supabase_database { wBase with stdinResponse := "y".toList } fsDb).1
        (dbDataPath ++ ".backup." ++ toString (0 : Nat)) = fsDb dbDataPath := by
  have h := claim_C4_amended { wBase with stdinResponse := "y".toList } fsDb
  have h2 : (clean_supabase_database { wBase with stdinResponse := "y".toList } fsDb).2
      = true := h.1.mpr (by constructor <;> decide)
  obtain ⟨ha, hb, -⟩ := h.2.2 h2
  exact ⟨h2, ha, hb⟩

/-! ### Claim C6 -/

/-- C6: the manifest-sync step is existence-gated: when the vendored
directory is absent it issues exactly clone, sparse-checkout init,
sparse-checkout path restriction, branch checkout, in that order (given that
the first three succeed, as the step aborts at the first failure); when the
directory is present it issues only a pull and no clone invocation. -/
theorem claim_C6_sync_gate (w : World) (fs : FS) :
    (fs "supabase" = Option.none →
      w.cmdOk gitCloneCmd = true → w.cmdOk gitSparseInitCmd = true →
      w.cmdOk gitSparseSetCmd = true →
      (clone_supabase_repo w fs).tr =
        [Event.cmd gitCloneCmd, Event.cmd gitSparseInitCmd,
         Event.cmd gitSparseSetCmd, Event.cmd gitCheckoutCmd]) ∧
    (fs "supabase" ≠ Option.none →
      (clone_supabase_repo w fs).tr = [Event.cmd gitPullCmd] ∧
      ∀ argv, Event.cmd argv ∈ (clone_supabase_repo w fs).tr → "clone" ∉ argv) := by
  constructor
  · intro h h1 h2 h3
    unfold clone_supabase_repo
    rw [if_pos h]
    cases h4 : w.cmdOk gitCheckoutCmd <;>
      simp [runSeq, run_command, h1, h2, h3, h4]
  · intro h
    unfold clone_supabase_repo
    rw [if_neg h]
    have htr : (runSeq w fs [gitPullCmd]).tr = [Event.cmd gitPullCmd] := by
      cases hok : w.cmdOk gitPullCmd <;> simp [runSeq, run_command, hok]
    refine ⟨htr, ?_⟩
    intro argv hmem
    rw [htr] at hmem
    simp only [List.mem_singleton, Event.cmd.injEq] at hmem
    subst hmem
    decide

/-- C6 witness: both branches at concrete inputs. -/
theorem claim_C6_sync_gate_witness :
    (clone_supabase_repo wBase (fun _ => Option.none)).tr =
      [Event.cmd gitCloneCmd, Event.cmd gitSparseInitCmd,
       Event.cmd gitSparseSetCmd, Event.cmd gitCheckoutCmd] ∧
    (clone_supabase_repo wBase fsTiny).tr = [Event.cmd gitPullCmd] :=
  ⟨(claim_C6_sync_gate wBase (fun _ => Option.none)).1 rfl rfl rfl rfl,
   ((claim_C6_sync_gate wBase fsTiny).2 (by decide)).1⟩

/-! ### Claim C8 -/

/-- C8: the first-run detection is fail-open: an error raised by the
container-runtime query, or by the exec probe once a running container was
found, makes the determination `true` (first run).  The detection is a total
function, so no error propagates out of it. -/
theorem claim_C8_detection_fail_open (w : World) :
    (w.dockerPs = Except.error () → (searxngFirstRun w).1 = true) ∧
    (∀ out name, w.dockerPs = Except.ok out →
      (splitNl (pyStrip out)).find? (fun n => !n.isEmpty) = some name →
      w.dockerExec name = Except.error () →
      (searxngFirstRun w).1 = true) := by
  constructor
  · intro h
    unfold searxngFirstRun
    rw [h]
  · intro out name hps hf hex
    unfold searxngFirstRun
    rw [hps]
    simp only [hf, hex]

/-- C8 witness: both failure modes at concrete worlds. -/
theorem claim_C8_detection_fail_open_witness :
    (searxngFirstRun { wBase with dockerPs := Except.error () }).1 = true ∧
    (searxngFirstRun { wBase with dockerPs := Except.ok "searxng".toList }).1 = true :=
  ⟨(claim_C8_detection_fail_open _).1 rfl,
   (claim_C8_detection_fail_open _).2 "searxng".toList "searxng".toList rfl (by decide) rfl⟩

/-! ### Claim C10 -/

/-- C10: the secret-provisioning step never rewrites the environment file
unless a placeholder matched verbatim: with the file absent the step
completes successfully and changes nothing; with the file present but no
placeholder occurring, it completes successfully, reports no update for any
entry, and leaves the filesystem (the file's bytes included) unchanged. -/
theorem claim_C10_frame (e : Nat → Nat → Nat) (fs : FS) :
    (fs ".env" = Option.none →
      update_env_secrets e fs = { ok := true, fs := fs, flags := [] }) ∧
    (∀ content, fs ".env" = some (Node.file content) →
      (∀ o ∈ envPlaceholders, occursB o content = false) →
      update_env_secrets e fs =
        { ok := true, fs := fs, flags := List.replicate 10 false }) := by
  constructor
  · intro h
    unfold update_env_secrets
    rw [h]
  · intro content h hocc
    unfold update_env_secrets
    rw [h]
    have hnone : ∀ p ∈ envReplacements e, occursB p.1 content = false := by
      intro p hp
      apply hocc
      rw [← envReplacements_fst e]
      exact List.mem_map_of_mem Prod.fst hp
    have happ := applyReps_none hnone
    simp only [happ]
    have hlen : (envReplacements e).length = 10 := rfl
    rw [hlen]
    simp

/-- C10 witness: both prongs at concrete filesystems. -/
theorem claim_C10_frame_witness :
    (update_env_secrets (fun _ _ => 0) (fun _ => Option.none) =
      { ok := true, fs := fun _ => Option.none, flags := [] }) ∧
    (update_env_secrets (fun _ _ => 0) fsTiny =
      { ok := true, fs := fsTiny, flags := List.replicate 10 false }) :=
  ⟨(claim_C10_frame (fun _ _ => 0) (fun _ => Option.none)).1 rfl,
   (claim_C10_frame (fun _ _ => 0) fsTiny).2 "x".toList (by decide) (by decide)⟩

/-! ### Per-line characterisation of the secret-provisioning fold -/

theorem noDash_hexVal (k : List Char) (hk : '-' ∉ k) (e' : Nat → Nat) (n : Nat) :
    '-' ∉ k ++ generate_hex_secret e' n := by
  intro hm
  rcases List.mem_append.1 hm with h | h
  · exact hk h
  · exact absurd (mem_generate_hex_secret h) (by decide)

theorem noDash_alnumVal (k : List Char) (hk : '-' ∉ k) (e' : Nat → Nat) (n : Nat) :
    '-' ∉ k ++ generate_secret e' n := by
  intro hm
  rcases List.mem_append.1 hm with h | h
  · exact hk h
  · exact absurd (mem_generate_secret h) (by decide)

/-- Splitting lemma: a replacement list that contains the pattern as an
entry, with no earlier pattern occurring in it and no later pattern occurring
in its replacement, folds the pattern to exactly its replacement. -/
theorem foldRep_hit_general (F T : List (List Char × List Char)) (o n : List Char)
    (rs : List (List Char × List Char)) (hrs : rs = F ++ (o, n) :: T)
    (hF : ∀ p ∈ F, occursB p.1 o = false) (ho : o ≠ [])
    (hT : ∀ p ∈ T, occursB p.1 n = false) :
    foldRep rs o = n := by
  subst hrs
  rw [foldRep_skip_front _ hF, foldRep_cons, replaceAll_self _ ho, foldRep_id hT]

/-- Each placeholder entry, taken alone, is folded to exactly its own
`KEY=` + generated value. -/
theorem foldRep_hits (e : Nat → Nat → Nat) :
    ∀ p ∈ envReplacements e, foldRep (envReplacements e) p.1 = p.2 := by
  intro p hp
  simp only [envReplacements, List.mem_cons] at hp
  rcases hp with rfl|rfl|rfl|rfl|rfl|rfl|rfl|rfl|rfl|rfl|h
  · exact foldRep_hit_general
      ([] : List (List Char × List Char))
      [("LOGFLARE_PRIVATE_ACCESS_TOKEN=your-super-secret-and-long-logflare-key-private".toList, "LOGFLARE_PRIVATE_ACCESS_TOKEN=".toList ++ generate_hex_secret (e 1) 32),
         ("VAULT_ENC_KEY=your-vault-encryption-key-32-chars-min".toList, "VAULT_ENC_KEY=".toList ++ generate_secret (e 2) 32),
         ("N8N_ENCRYPTION_KEY=super-secret-key".toList, "N8N_ENCRYPTION_KEY=".toList ++ generate_hex_secret (e 3) 32),
         ("N8N_USER_MANAGEMENT_JWT_SECRET=even-more-secret".toList, "N8N_USER_MANAGEMENT_JWT_SECRET=".toList ++ generate_hex_secret (e 4) 32),
         ("CLICKHOUSE_PASSWORD=super-secret-key-1".toList, "CLICKHOUSE_PASSWORD=".toList ++ generate_secret (e 5) 32),
         ("MINIO_ROOT_PASSWORD=super-secret-key-2".toList, "MINIO_ROOT_PASSWORD=".toList ++ generate_secret (e 6) 32),
         ("LANGFUSE_SALT=super-secret-key-3".toList, "LANGFUSE_SALT=".toList ++ generate_hex_secret (e 7) 32),
         ("NEXTAUTH_SECRET=super-secret-key-4".toList, "NEXTAUTH_SECRET=".toList ++ generate_hex_secret (e 8) 32),
         ("ENCRYPTION_KEY=generate-with-openssl".toList, "ENCRYPTION_KEY=".toList ++ generate_hex_secret (e 9) 32)]
      ("LOGFLARE_PUBLIC_ACCESS_TOKEN=your-super-secret-and-long-logflare-key-public".toList) ("LOGFLARE_PUBLIC_ACCESS_TOKEN=".toList ++ generate_hex_secret (e 0) 32)
      (envReplacements e) rfl
      (by intro q hq; exact absurd hq (List.not_mem_nil q))
      (by decide)
      (by
        intro q hq
        fin_cases hq <;>
          (dsimp only
           exact occursB_eq_false_of_missing (by decide) (noDash_hexVal _ (by decide) _ _)))
  · exact foldRep_hit_general
      [("LOGFLARE_PUBLIC_ACCESS_TOKEN=your-super-secret-and-long-logflare-key-public".toList, "LOGFLARE_PUBLIC_ACCESS_TOKEN=".toList ++ generate_hex_secret (e 0) 32)]
      [("VAULT_ENC_KEY=your-vault-encryption-key-32-chars-min".toList, "VAULT_ENC_KEY=".toList ++ generate_secret (e 2) 32),
         ("N8N_ENCRYPTION_KEY=super-secret-key".toList, "N8N_ENCRYPTION_KEY=".toList ++ generate_hex_secret (e 3) 32),
         ("N8N_USER_MANAGEMENT_JWT_SECRET=even-more-secret".toList, "N8N_USER_MANAGEMENT_JWT_SECRET=".toList ++ generate_hex_secret (e 4) 32),
         ("CLICKHOUSE_PASSWORD=super-secret-key-1".toList, "CLICKHOUSE_PASSWORD=".toList ++ generate_secret (e 5) 32),
         ("MINIO_ROOT_PASSWORD=super-secret-key-2".toList, "MINIO_ROOT_PASSWORD=".toList ++ generate_secret (e 6) 32),
         ("LANGFUSE_SALT=super-secret-key-3".toList, "LANGFUSE_SALT=".toList ++ generate_hex_secret (e 7) 32),
         ("NEXTAUTH_SECRET=super-secret-key-4".toList, "NEXTAUTH_SECRET=".toList ++ generate_hex_secret (e 8) 32),
         ("ENCRYPTION_KEY=generate-with-openssl".toList, "ENCRYPTION_KEY=".toList ++ generate_hex_secret (e 9) 32)]
      ("LOGFLARE_PRIVATE_ACCESS_TOKEN=your-super-secret-and-long-logflare-key-private".toList) ("LOGFLARE_PRIVATE_ACCESS_TOKEN=".toList ++ generate_hex_secret (e 1) 32)
      (envReplacements e) rfl
      (by intro q hq; fin_cases hq <;> (dsimp only; decide))
      (by decide)
      (by
        intro q hq
        fin_cases hq <;>
          (dsimp only
           exact occursB_eq_false_of_missing (by decide) (noDash_hexVal _ (by decide) _ _)))
  · exact foldRep_hit_general
      [("LOGFLARE_PUBLIC_ACCESS_TOKEN=your-super-secret-and-long-logflare-key-public".toList, "LOGFLARE_PUBLIC_ACCESS_TOKEN=".toList ++ generate_hex_secret (e 0) 32),
         ("LOGFLARE_PRIVATE_ACCESS_TOKEN=your-super-secret-and-long-logflare-key-private".toList, "LOGFLARE_PRIVATE_ACCESS_TOKEN=".toList ++ generate_hex_secret (e 1) 32)]
      [("N8N_ENCRYPTION_KEY=super-secret-key".toList, "N8N_ENCRYPTION_KEY=".toList ++ generate_hex_secret (e 3) 32),
         ("N8N_USER_MANAGEMENT_JWT_SECRET=even-more-secret".toList, "N8N_USER_MANAGEMENT_JWT_SECRET=".toList ++ generate_hex_secret (e 4) 32),
         ("CLICKHOUSE_PASSWORD=super-secret-key-1".toList, "CLICKHOUSE_PASSWORD=".toList ++ generate_secret (e 5) 32),
         ("MINIO_ROOT_PASSWORD=super-secret-key-2".toList, "MINIO_ROOT_PASSWORD=".toList ++ generate_secret (e 6) 32),
         ("LANGFUSE_SALT=super-secret-key-3".toList, "LANGFUSE_SALT=".toList ++ generate_hex_secret (e 7) 32),
         ("NEXTAUTH_SECRET=super-secret-key-4".toList, "NEXTAUTH_SECRET=".toList ++ generate_hex_secret (e 8) 32),
         ("ENCRYPTION_KEY=generate-with-openssl".toList, "ENCRYPTION_KEY=".toList ++ generate_hex_secret (e 9) 32)]
      ("VAULT_ENC_KEY=your-vault-encryption-key-32-chars-min".toList) ("VAULT_ENC_KEY=".toList ++ generate_secret (e 2) 32)
      (envReplacements e) rfl
      (by intro q hq; fin_cases hq <;> (dsimp only; decide))
      (by decide)
      (by
        intro q hq
        fin_cases hq <;>
          (dsimp only
           exact occursB_eq_false_of_missing (by decide) (noDash_alnumVal _ (by decide) _ _)))
  · exact foldRep_hit_general
      [("LOGFLARE_PUBLIC_ACCESS_TOKEN=your-super-secret-and-long-logflare-key-public".toList, "LOGFLARE_PUBLIC_ACCESS_TOKEN=".toList ++ generate_hex_secret (e 0) 32),
         ("LOGFLARE_PRIVATE_ACCESS_TOKEN=your-super-secret-and-long-logflare-key-private".toList, "LOGFLARE_PRIVATE_ACCESS_TOKEN=".toList ++ generate_hex_secret (e 1) 32),
         ("VAULT_ENC_KEY=your-vault-encryption-key-32-chars-min".toList, "VAULT_ENC_KEY=".toList ++ generate_secret (e 2) 32)]
      [("N8N_USER_MANAGEMENT_JWT_SECRET=even-more-secret".toList, "N8N_USER_MANAGEMENT_JWT_SECRET=".toList ++ generate_hex_secret (e 4) 32),
         ("CLICKHOUSE_PASSWORD=super-secret-key-1".toList, "CLICKHOUSE_PASSWORD=".toList ++ generate_secret (e 5) 32),
         ("MINIO_ROOT_PASSWORD=super-secret-key-2".toList, "MINIO_ROOT_PASSWORD=".toList ++ generate_secret (e 6) 32),
         ("LANGFUSE_SALT=super-secret-key-3".toList, "LANGFUSE_SALT=".toList ++ generate_hex_secret (e 7) 32),
         ("NEXTAUTH_SECRET=super-secret-key-4".toList, "NEXTAUTH_SECRET=".toList ++ generate_hex_secret (e 8) 32),
         ("ENCRYPTION_KEY=generate-with-openssl".toList, "ENCRYPTION_KEY=".toList ++ generate_hex_secret (e 9) 32)]
      ("N8N_ENCRYPTION_KEY=super-secret-key".toList) ("N8N_ENCRYPTION_KEY=".toList ++ generate_hex_secret (e 3) 32)
      (envReplacements e) rfl
      (by intro q hq; fin_cases hq <;> (dsimp only; decide))
      (by decide)
      (by
        intro q hq
        fin_cases hq <;>
          (dsimp only
           exact occursB_eq_false_of_missing (by decide) (noDash_hexVal _ (by decide) _ _)))
  · exact foldRep_hit_general
      [("LOGFLARE_PUBLIC_ACCESS_TOKEN=your-super-secret-and-long-logflare-key-public".toList, "LOGFLARE_PUBLIC_ACCESS_TOKEN=".toList ++ generate_hex_secret (e 0) 32),
         ("LOGFLARE_PRIVATE_ACCESS_TOKEN=your-super-secret-and-long-logflare-key-private".toList, "LOGFLARE_PRIVATE_ACCESS_TOKEN=".toList ++ generate_hex_secret (e 1) 32),
         ("VAULT_ENC_KEY=your-vault-encryption-key-32-chars-min".toList, "VAULT_ENC_KEY=".toList ++ generate_secret (e 2) 32),
         ("N8N_ENCRYPTION_KEY=super-secret-key".toList, "N8N_ENCRYPTION_KEY=".toList ++ generate_hex_secret (e 3) 32)]
      [("CLICKHOUSE_PASSWORD=super-secret-key-1".toList, "CLICKHOUSE_PASSWORD=".toList ++ generate_secret (e 5) 32),
         ("MINIO_ROOT_PASSWORD=super-secret-key-2".toList, "MINIO_ROOT_PASSWORD=".toList ++ generate_secret (e 6) 32),
         ("LANGFUSE_SALT=super-secret-key-3".toList, "LANGFUSE_SALT=".toList ++ generate_hex_secret (e 7) 32),
         ("NEXTAUTH_SECRET=super-secret-key-4".toList, "NEXTAUTH_SECRET=".toList ++ generate_hex_secret (e 8) 32),
         ("ENCRYPTION_KEY=generate-with-openssl".toList, "ENCRYPTION_KEY=".toList ++ generate_hex_secret (e 9) 32)]
      ("N8N_USER_MANAGEMENT_JWT_SECRET=even-more-secret".toList) ("N8N_USER_MANAGEMENT_JWT_SECRET=".toList ++ generate_hex_secret (e 4) 32)
      (envReplacements e) rfl
      (by intro q hq; fin_cases hq <;> (dsimp only; decide))
      (by decide)
      (by
        intro q hq
        fin_cases hq <;>
          (dsimp only
           exact occursB_eq_false_of_missing (by decide) (noDash_hexVal _ (by decide) _ _)))
  · exact foldRep_hit_general
      [("LOGFLARE_PUBLIC_ACCESS_TOKEN=your-super-secret-and-long-logflare-key-public".toList, "LOGFLARE_PUBLIC_ACCESS_TOKEN=".toList ++ generate_hex_secret (e 0) 32),
         ("LOGFLARE_PRIVATE_ACCESS_TOKEN=your-super-secret-and-long-logflare-key-private".toList, "LOGFLARE_PRIVATE_ACCESS_TOKEN=".toList ++ generate_hex_secret (e 1) 32),
         ("VAULT_ENC_KEY=your-vault-encryption-key-32-chars-min".toList, "VAULT_ENC_KEY=".toList ++ generate_secret (e 2) 32),
         ("N8N_ENCRYPTION_KEY=super-secret-key".toList, "N8N_ENCRYPTION_KEY=".toList ++ generate_hex_secret (e 3) 32),
         ("N8N_USER_MANAGEMENT_JWT_SECRET=even-more-secret".toList, "N8N_USER_MANAGEMENT_JWT_SECRET=".toList ++ generate_hex_secret (e 4) 32)]
      [("MINIO_ROOT_PASSWORD=super-secret-key-2".toList, "MINIO_ROOT_PASSWORD=".toList ++ generate_secret (e 6) 32),
         ("LANGFUSE_SALT=super-secret-key-3".toList, "LANGFUSE_SALT=".toList ++ generate_hex_secret (e 7) 32),
         ("NEXTAUTH_SECRET=super-secret-key-4".toList, "NEXTAUTH_SECRET=".toList ++ generate_hex_secret (e 8) 32),
         ("ENCRYPTION_KEY=generate-with-openssl".toList, "ENCRYPTION_KEY=".toList ++ generate_hex_secret (e 9) 32)]
      ("CLICKHOUSE_PASSWORD=super-secret-key-1".toList) ("CLICKHOUSE_PASSWORD=".toList ++ generate_secret (e 5) 32)
      (envReplacements e) rfl
      (by intro q hq; fin_cases hq <;> (dsimp only; decide))
      (by decide)
      (by
        intro q hq
        fin_cases hq <;>
          (dsimp only
           exact occursB_eq_false_of_missing (by decide) (noDash_alnumVal _ (by decide) _ _)))
  · exact foldRep_hit_general
      [("LOGFLARE_PUBLIC_ACCESS_TOKEN=your-super-secret-and-long-logflare-key-public".toList, "LOGFLARE_PUBLIC_ACCESS_TOKEN=".toList ++ generate_hex_secret (e 0) 32),
         ("LOGFLARE_PRIVATE_ACCESS_TOKEN=your-super-secret-and-long-logflare-key-private".toList, "LOGFLARE_PRIVATE_ACCESS_TOKEN=".toList ++ generate_hex_secret (e 1) 32),
         ("VAULT_ENC_KEY=your-vault-encryption-key-32-chars-min".toList, "VAULT_ENC_KEY=".toList ++ generate_secret (e 2) 32),
         ("N8N_ENCRYPTION_KEY=super-secret-key".toList, "N8N_ENCRYPTION_KEY=".toList ++ generate_hex_secret (e 3) 32),
         ("N8N_USER_MANAGEMENT_JWT_SECRET=even-more-secret".toList, "N8N_USER_MANAGEMENT_JWT_SECRET=".toList ++ generate_hex_secret (e 4) 32),
         ("CLICKHOUSE_PASSWORD=super-secret-key-1".toList, "CLICKHOUSE_PASSWORD=".toList ++ generate_secret (e 5) 32)]
      [("LANGFUSE_SALT=super-secret-key-3".toList, "LANGFUSE_SALT=".toList ++ generate_hex_secret (e 7) 32),
         ("NEXTAUTH_SECRET=super-secret-key-4".toList, "NEXTAUTH_SECRET=".toList ++ generate_hex_secret (e 8) 32),
         ("ENCRYPTION_KEY=generate-with-openssl".toList, "ENCRYPTION_KEY=".toList ++ generate_hex_secret (e 9) 32)]
      ("MINIO_ROOT_PASSWORD=super-secret-key-2".toList) ("MINIO_ROOT_PASSWORD=".toList ++ generate_secret (e 6) 32)
      (envReplacements e) rfl
      (by intro q hq; fin_cases hq <;> (dsimp only; decide))
      (by decide)
      (by
        intro q hq
        fin_cases hq <;>
          (dsimp only
           exact occursB_eq_false_of_missing (by decide) (noDash_alnumVal _ (by decide) _ _)))
  · exact foldRep_hit_general
      [("LOGFLARE_PUBLIC_ACCESS_TOKEN=your-super-secret-and-long-logflare-key-public".toList, "LOGFLARE_PUBLIC_ACCESS_TOKEN=".toList ++ generate_hex_secret (e 0) 32),
         ("LOGFLARE_PRIVATE_ACCESS_TOKEN=your-super-secret-and-long-logflare-key-private".toList, "LOGFLARE_PRIVATE_ACCESS_TOKEN=".toList ++ generate_hex_secret (e 1) 32),
         ("VAULT_ENC_KEY=your-vault-encryption-key-32-chars-min".toList, "VAULT_ENC_KEY=".toList ++ generate_secret (e 2) 32),
         ("N8N_ENCRYPTION_KEY=super-secret-key".toList, "N8N_ENCRYPTION_KEY=".toList ++ generate_hex_secret (e 3) 32),
         ("N8N_USER_MANAGEMENT_JWT_SECRET=even-more-secret".toList, "N8N_USER_MANAGEMENT_JWT_SECRET=".toList ++ generate_hex_secret (e 4) 32),
         ("CLICKHOUSE_PASSWORD=super-secret-key-1".toList, "CLICKHOUSE_PASSWORD=".toList ++ generate_secret (e 5) 32),
         ("MINIO_ROOT_PASSWORD=super-secret-key-2".toList, "MINIO_ROOT_PASSWORD=".toList ++ generate_secret (e 6) 32)]
      [("NEXTAUTH_SECRET=super-secret-key-4".toList, "NEXTAUTH_SECRET=".toList ++ generate_hex_secret (e 8) 32),
         ("ENCRYPTION_KEY=generate-with-openssl".toList, "ENCRYPTION_KEY=".toList ++ generate_hex_secret (e 9) 32)]
      ("LANGFUSE_SALT=super-secret-key-3".toList) ("LANGFUSE_SALT=".toList ++ generate_hex_secret (e 7) 32)
      (envReplacements e) rfl
      (by intro q hq; fin_cases hq <;> (dsimp only; decide))
      (by decide)
      (by
        intro q hq
        fin_cases hq <;>
          (dsimp only
           exact occursB_eq_false_of_missing (by decide) (noDash_hexVal _ (by decide) _ _)))
  · exact foldRep_hit_general
      [("LOGFLARE_PUBLIC_ACCESS_TOKEN=your-super-secret-and-long-logflare-key-public".toList, "LOGFLARE_PUBLIC_ACCESS_TOKEN=".toList ++ generate_hex_secret (e 0) 32),
         ("LOGFLARE_PRIVATE_ACCESS_TOKEN=your-super-secret-and-long-logflare-key-private".toList, "LOGFLARE_PRIVATE_ACCESS_TOKEN=".toList ++ generate_hex_secret (e 1) 32),
         ("VAULT_ENC_KEY=your-vault-encryption-key-32-chars-min".toList, "VAULT_ENC_KEY=".toList ++ generate_secret (e 2) 32),
         ("N8N_ENCRYPTION_KEY=super-secret-key".toList, "N8N_ENCRYPTION_KEY=".toList ++ generate_hex_secret (e 3) 32),
         ("N8N_USER_MANAGEMENT_JWT_SECRET=even-more-secret".toList, "N8N_USER_MANAGEMENT_JWT_SECRET=".toList ++ generate_hex_secret (e 4) 32),
         ("CLICKHOUSE_PASSWORD=super-secret-key-1".toList, "CLICKHOUSE_PASSWORD=".toList ++ generate_secret (e 5) 32),
         ("MINIO_ROOT_PASSWORD=super-secret-key-2".toList, "MINIO_ROOT_PASSWORD=".toList ++ generate_secret (e 6) 32),
         ("LANGFUSE_SALT=super-secret-key-3".toList, "LANGFUSE_SALT=".toList ++ generate_hex_secret (e 7) 32)]
      [("ENCRYPTION_KEY=generate-with-openssl".toList, "ENCRYPTION_KEY=".toList ++ generate_hex_secret (e 9) 32)]
      ("NEXTAUTH_SECRET=super-secret-key-4".toList) ("NEXTAUTH_SECRET=".toList ++ generate_hex_secret (e 8) 32)
      (envReplacements e) rfl
      (by intro q hq; fin_cases hq <;> (dsimp only; decide))
      (by decide)
      (by
        intro q hq
        fin_cases hq <;>
          (dsimp only
           exact occursB_eq_false_of_missing (by decide) (noDash_hexVal _ (by decide) _ _)))
  · exact foldRep_hit_general
      [("LOGFLARE_PUBLIC_ACCESS_TOKEN=your-super-secret-and-long-logflare-key-public".toList, "LOGFLARE_PUBLIC_ACCESS_TOKEN=".toList ++ generate_hex_secret (e 0) 32),
         ("LOGFLARE_PRIVATE_ACCESS_TOKEN=your-super-secret-and-long-logflare-key-private".toList, "LOGFLARE_PRIVATE_ACCESS_TOKEN=".toList ++ generate_hex_secret (e 1) 32),
         ("VAULT_ENC_KEY=your-vault-encryption-key-32-chars-min".toList, "VAULT_ENC_KEY=".toList ++ generate_secret (e 2) 32),
         ("N8N_ENCRYPTION_KEY=super-secret-key".toList, "N8N_ENCRYPTION_KEY=".toList ++ generate_hex_secret (e 3) 32),
         ("N8N_USER_MANAGEMENT_JWT_SECRET=even-more-secret".toList, "N8N_USER_MANAGEMENT_JWT_SECRET=".toList ++ generate_hex_secret (e 4) 32),
         ("CLICKHOUSE_PASSWORD=super-secret-key-1".toList, "CLICKHOUSE_PASSWORD=".toList ++ generate_secret (e 5) 32),
         ("MINIO_ROOT_PASSWORD=super-secret-key-2".toList, "MINIO_ROOT_PASSWORD=".toList ++ generate_secret (e 6) 32),
         ("LANGFUSE_SALT=super-secret-key-3".toList, "LANGFUSE_SALT=".toList ++ generate_hex_secret (e 7) 32),
         ("NEXTAUTH_SECRET=super-secret-key-4".toList, "NEXTAUTH_SECRET=".toList ++ generate_hex_secret (e 8) 32)]
      ([] : List (List Char × List Char))
      ("ENCRYPTION_KEY=generate-with-openssl".toList) ("ENCRYPTION_KEY=".toList ++ generate_hex_secret (e 9) 32)
      (envReplacements e) rfl
      (by intro q hq; fin_cases hq <;> (dsimp only; decide))
      (by decide)
      (by intro q hq; exact absurd hq (List.not_mem_nil q))
  · cases h

/-- Per-line effect of the fold on a clean line: after the fold, no
placeholder occurs in the line. -/
theorem envLine_foldRep (e : Nat → Nat → Nat) {l : List Char}
    (hclean : ∀ o ∈ envPlaceholders, occursB o l = true → l = o) :
    ∀ o ∈ envPlaceholders, occursB o (foldRep (envReplacements e) l) = false := by
  by_cases hex : ∃ o ∈ envPlaceholders, occursB o l = true
  · rcases hex with ⟨o, ho, hocc⟩
    have hlo := hclean o ho hocc
    subst hlo
    have hpair : ∃ p ∈ envReplacements e, p.1 = l := by
      rw [← envReplacements_fst e] at ho
      rcases List.mem_map.1 ho with ⟨p, hp, hfst⟩
      exact ⟨p, hp, hfst⟩
    rcases hpair with ⟨p, hp, hfst⟩
    rw [← hfst, foldRep_hits e p hp]
    intro o' ho'
    exact placeholder_not_in_newVal o' ho' p hp
  · push_neg at hex
    have hid : ∀ p ∈ envReplacements e, occursB p.1 l = false := by
      intro p hp
      have hm : p.1 ∈ envPlaceholders := by
        rw [← envReplacements_fst e]
        exact List.mem_map_of_mem Prod.fst hp
      have := hex p.1 hm
      cases hx : occursB p.1 l with
      | false => rfl
      | true => exact absurd hx this
    rw [foldRep_id hid]
    intro o ho
    have := hex o ho
    cases hx : occursB o l with
    | false => rfl
    | true => exact absurd hx this

/-- All patterns of the replacement dictionary are newline-free. -/
theorem envReplacements_pat_no_nl (e : Nat → Nat → Nat) :
    ∀ p ∈ envReplacements e, '\n' ∉ p.1 := by
  intro p hp
  have hm : p.1 ∈ envPlaceholders := by
    rw [← envReplacements_fst e]
    exact List.mem_map_of_mem Prod.fst hp
  exact (placeholder_no_nl p.1 hm).1

/-- Content-level effect of one provisioning run on a clean environment
file, and idempotence of a second run. -/
theorem env_content_two_runs (e1 e2 : Nat → Nat → Nat) (content : List Char)
    (hclean : cleanEnv content) :
    splitNl (foldRep (envReplacements e1) content) =
      (splitNl content).map (foldRep (envReplacements e1)) ∧
    (∀ o ∈ envPlaceholders,
      occursB o (foldRep (envReplacements e1) content) = false) ∧
    applyReps (envReplacements e2) (foldRep (envReplacements e1) content) =
      (foldRep (envReplacements e1) content, List.replicate 10 false) := by
  have hjoin : foldRep (envReplacements e1) content =
      joinNl ((splitNl content).map (foldRep (envReplacements e1))) := by
    conv_lhs => rw [← joinNl_splitNl content]
    exact foldRep_joinNl (envReplacements_pat_no_nl e1) (splitNl content)
  have hlinesNl : ∀ x ∈ (splitNl content).map (foldRep (envReplacements e1)), '\n' ∉ x := by
    intro x hx
    rcases List.mem_map.1 hx with ⟨l0, hl0, rfl⟩
    intro hmem
    rcases mem_foldRep hmem with h | ⟨p, hp, h⟩
    · exact splitNl_nlFree l0 hl0 h
    · exact newVal_no_nl p hp h
  have hsplit : splitNl (foldRep (envReplacements e1) content) =
      (splitNl content).map (foldRep (envReplacements e1)) := by
    rw [hjoin]
    exact splitNl_joinNl hlinesNl (by simp [splitNl_ne_nil content])
  have hocc1 : ∀ o ∈ envPlaceholders,
      occursB o (foldRep (envReplacements e1) content) = false := by
    intro o ho
    rw [hjoin, occursB_joinNl (placeholder_no_nl o ho).1 (placeholder_no_nl o ho).2]
    rw [List.any_eq_false]
    intro x hx
    rcases List.mem_map.1 hx with ⟨l0, hl0, rfl⟩
    rw [envLine_foldRep e1 (hclean l0 hl0) o ho]
    simp
  refine ⟨hsplit, hocc1, ?_⟩
  have hnone : ∀ p ∈ envReplacements e2,
      occursB p.1 (foldRep (envReplacements e1) content) = false := by
    intro p hp
    apply hocc1
    rw [← envReplacements_fst e2]
    exact List.mem_map_of_mem Prod.fst hp
  have := applyReps_none hnone
  rw [this]
  rfl

/-- Filesystem-level characterisation of `update_env_secrets` on a present
environment file. -/
theorem update_env_fs (e : Nat → Nat → Nat) (fs : FS) (content : List Char)
    (h : fs ".env" = some (Node.file content)) :
    (update_env_secrets e fs).ok = true ∧
    (update_env_secrets e fs).fs ".env" =
      some (Node.file (foldRep (envReplacements e) content)) ∧
    ∀ p, p ≠ ".env" → (update_env_secrets e fs).fs p = fs p := by
  simp only [update_env_secrets, h]
  split
  · refine ⟨rfl, ?_, ?_⟩
    · show (if (".env" : String) = ".env"
          then some (Node.file ((applyReps (envReplacements e) content).1))
          else fs ".env") = _
      rw [if_pos rfl, applyReps_fst]
    · intro p hp
      show (if p = ".env" then _ else fs p) = fs p
      rw [if_neg hp]
  · next hflag =>
    have hflag' : (applyReps (envReplacements e) content).2.any id = false := by
      cases hx : (applyReps (envReplacements e) content).2.any id with
      | false => rfl
      | true => exact absurd hx hflag
    have hfst : (applyReps (envReplacements e) content).1 = content :=
      applyReps_fst_of_no_flag hflag'
    have hfold : foldRep (envReplacements e) content = content := by
      rw [← applyReps_fst, hfst]
    exact ⟨rfl, by show fs ".env" = _; rw [h, hfold], fun p _ => rfl⟩

/-- `update_env_secrets` on a file containing no placeholder: no entry is
replaced and the filesystem is unchanged. -/
theorem update_env_no_match (e : Nat → Nat → Nat) (fs : FS) (content : List Char)
    (h : fs ".env" = some (Node.file content))
    (hocc : ∀ p ∈ envReplacements e, occursB p.1 content = false) :
    update_env_secrets e fs =
      { ok := true, fs := fs, flags := List.replicate 10 false } := by
  unfold update_env_secrets
  rw [h]
  have happ := applyReps_none hocc
  simp only [happ]
  have hlen : (envReplacements e).length = 10 := rfl
  rw [hlen]
  simp

/-! ### Claim C1 -/

/-- C1, counterexample: once-replaced is NOT always idempotent.  On an
environment file in which the CLICKHOUSE placeholder is immediately followed
(same line) by `_PASSWORD=super-secret-key-1`, and with possible entropy
making the generated password end in the letters `CLICKHOUSE`, the first run
replaces the entry (flag 5) but recreates the placeholder by juxtaposition,
so a second run replaces that same entry again. -/
theorem claim_C1_counterexample :
    (update_env_secrets advEntropy
      (fun p => if p = ".env" then some (Node.file advEnvContent)
                else Option.none)).flags.getD 5 false = true ∧
    (update_env_secrets (fun _ _ => 0)
      ((update_env_secrets advEntropy
        (fun p => if p = ".env" then some (Node.file advEnvContent)
                  else Option.none)).fs)).flags.getD 5 false = true := by
  decide

/-- C1 (amended): on an environment file in which every line containing a
placeholder entry consists exactly of that entry (as in the shipped file),
the provisioning step succeeds, rewrites the file line by line, folds each
placeholder entry to `KEY=` followed by its fixed generator's output (the
alphanumeric generator yields strings of the requested length over the
alphanumeric alphabet, and the hex generator yields strings of twice the
requested byte count over the lowercase hex digits; the entries call them
with length 32, i.e. 32 alphanumeric or 64 hex characters), removes every
placeholder occurrence, and a second run performs no replacement for any
entry and leaves the file untouched. -/
theorem claim_C1_amended (e1 e2 : Nat → Nat → Nat) (fs : FS) (content : List Char)
    (hfile : fs ".env" = some (Node.file content))
    (hclean : cleanEnv content) :
    (update_env_secrets e1 fs).ok = true ∧
    (update_env_secrets e1 fs).fs ".env" =
      some (Node.file (foldRep (envReplacements e1) content)) ∧
    splitNl (foldRep (envReplacements e1) content) =
      (splitNl content).map (foldRep (envReplacements e1)) ∧
    (∀ p ∈ envReplacements e1, foldRep (envReplacements e1) p.1 = p.2) ∧
    (∀ eS n, (generate_secret eS n).length = n ∧
      ∀ x ∈ generate_secret eS n, x ∈ secretAlphabet) ∧
    (∀ eS n, (generate_hex_secret eS n).length = 2 * n ∧
      ∀ x ∈ generate_hex_secret eS n, x ∈ hexDigitsList) ∧
    (∀ o ∈ envPlaceholders, occursB o (foldRep (envReplacements e1) content) = false) ∧
    update_env_secrets e2 ((update_env_secrets e1 fs).fs) =
      { ok := true, fs := (update_env_secrets e1 fs).fs,
        flags := List.replicate 10 false } := by
  obtain ⟨hok, henv, hframe⟩ := update_env_fs e1 fs content hfile
  obtain ⟨hsplit, hocc, happly2⟩ := env_content_two_runs e1 e2 content hclean
  refine ⟨hok, henv, hsplit, foldRep_hits e1, ?_, ?_, hocc, ?_⟩
  · exact fun eS n => ⟨generate_secret_length eS n, fun x hx => mem_generate_secret hx⟩
  · exact fun eS n => ⟨generate_hex_secret_length eS n, fun x hx => mem_generate_hex_secret hx⟩
  · refine update_env_no_match e2 _ _ henv ?_
    intro p hp
    apply hocc
    rw [← envReplacements_fst e2]
    exact List.mem_map_of_mem Prod.fst hp

/-- C1 witness: on the shipped default environment file a second run changes
nothing and reports no update for any entry. -/
theorem claim_C1_amended_witness :
    update_env_secrets (fun _ _ => 0)
        ((update_env_secrets (fun _ _ => 0) fsFresh).fs) =
      { ok := true, fs := (update_env_secrets (fun _ _ => 0) fsFresh).fs,
        flags := List.replicate 10 false } :=
  (claim_C1_amended (fun _ _ => 0) (fun _ _ => 0) fsFresh defaultEnvContent rfl
    (by unfold cleanEnv; decide)).2.2.2.2.2.2.2

/-! ### Sequencing lemmas -/

theorem andThen_of_ok {r : StepRes} (f : FS → StepRes) (h : r.ok = true) :
    andThen r f = { ok := (f r.fs).ok, fs := (f r.fs).fs, tr := r.tr ++ (f r.fs).tr } := by
  unfold andThen
  rw [if_pos h]

theorem andThen_of_fail {r : StepRes} (f : FS → StepRes) (h : r.ok = false) :
    andThen r f = r := by
  unfold andThen
  rw [if_neg (by rw [h]; simp)]

theorem andThen_suffix {r : StepRes} {f : FS → StepRes}
    (hok : (andThen r f).ok = true) :
    (andThen r f).tr = r.tr ++ (f r.fs).tr ∧ r.ok = true ∧ (f r.fs).ok = true := by
  by_cases h : r.ok = true
  · rw [andThen_of_ok f h] at hok ⊢
    exact ⟨rfl, h, hok⟩
  · have h' : r.ok = false := by
      cases hx : r.ok with
      | false => rfl
      | true => exact absurd hx h
    rw [andThen_of_fail f h'] at hok
    exact absurd hok (by rw [h']; simp)

theorem runSeq_fs (w : World) :
    ∀ (cmds : List (List String)) (fs : FS), (runSeq w fs cmds).fs = fs := by
  intro cmds
  induction cmds with
  | nil => intro fs; rfl
  | cons c rest ih =>
    intro fs
    unfold runSeq
    by_cases h : w.cmdOk c = true
    · simp only [run_command, h, if_true]
      exact ih fs
    · have h' : w.cmdOk c = false := by
        cases hx : w.cmdOk c with
        | false => rfl
        | true => exact absurd hx h
      simp only [run_command, h']
      rfl

theorem runSeq_ok (w : World) :
    ∀ (cmds : List (List String)) (fs : FS), (∀ c ∈ cmds, w.cmdOk c = true) →
      (runSeq w fs cmds).ok = true := by
  intro cmds
  induction cmds with
  | nil => intro fs _; rfl
  | cons c rest ih =>
    intro fs h
    unfold runSeq
    have hc : w.cmdOk c = true := h c (List.mem_cons_self _ _)
    simp only [run_command, hc, if_true]
    exact ih fs (fun c' hc' => h c' (List.mem_cons_of_mem _ hc'))

theorem runSeq_tr_of_ok (w : World) :
    ∀ (cmds : List (List String)) (fs : FS), (∀ c ∈ cmds, w.cmdOk c = true) →
      (runSeq w fs cmds).tr = cmds.map Event.cmd := by
  intro cmds
  induction cmds with
  | nil => intro fs _; rfl
  | cons c rest ih =>
    intro fs h
    unfold runSeq
    have hc : w.cmdOk c = true := h c (List.mem_cons_self _ _)
    simp only [run_command, hc, if_true]
    rw [ih fs (fun c' hc' => h c' (List.mem_cons_of_mem _ hc'))]
    rfl

theorem runSeq_tr_mem (w : World) :
    ∀ (cmds : List (List String)) (fs : FS) (ev : Event),
      ev ∈ (runSeq w fs cmds).tr → ∃ argv ∈ cmds, ev = Event.cmd argv := by
  intro cmds
  induction cmds with
  | nil => intro fs ev h; cases h
  | cons c rest ih =>
    intro fs ev h
    unfold runSeq at h
    by_cases hc : w.cmdOk c = true
    · simp only [run_command, hc, if_true] at h
      rcases List.mem_append.1 h with h' | h'
      · rcases List.mem_singleton.1 h' with rfl
        exact ⟨c, List.mem_cons_self _ _, rfl⟩
      · rcases ih fs ev h' with ⟨argv, hargv, rfl⟩
        exact ⟨argv, List.mem_cons_of_mem _ hargv, rfl⟩
    · have h' : w.cmdOk c = false := by
        cases hx : w.cmdOk c with
        | false => rfl
        | true => exact absurd hx hc
      simp only [run_command, h'] at h
      rcases List.mem_singleton.1 (by simpa using h) with rfl
      exact ⟨c, List.mem_cons_self _ _, rfl⟩

/-! ### Per-step facts used for the startup-sequencing claims -/

theorem isCompose_head (a b : String) (rest : List String) :
    isComposeEvent (Event.cmd (a :: b :: rest)) = ((a == "docker") && (b == "compose")) := by
  show ((a :: b :: rest).take 2 == ["docker", "compose"]) = _
  rw [show (a :: b :: rest).take 2 = [a, b] from rfl]
  show (a == "docker" && (b == "compose" && true)) = _
  rw [Bool.and_true]

theorem clone_fs (w : World) (fs : FS) : (clone_supabase_repo w fs).fs = fs := by
  unfold clone_supabase_repo
  split
  · exact runSeq_fs w _ fs
  · exact runSeq_fs w _ fs

theorem clone_ok (w : World) (fs : FS)
    (h : ∀ c ∈ [gitCloneCmd, gitSparseInitCmd, gitSparseSetCmd, gitCheckoutCmd, gitPullCmd],
      w.cmdOk c = true) :
    (clone_supabase_repo w fs).ok = true := by
  unfold clone_supabase_repo
  split
  · exact runSeq_ok w _ fs (fun c hc => h c (by
      simp only [List.mem_cons, List.mem_singleton] at hc ⊢
      tauto))
  · exact runSeq_ok w _ fs (fun c hc => h c (by
      simp only [List.mem_cons, List.mem_singleton] at hc ⊢
      tauto))

theorem clone_tr_noCompose (w : World) (fs : FS) :
    ∀ ev ∈ (clone_supabase_repo w fs).tr, isComposeEvent ev = false := by
  intro ev hev
  unfold clone_supabase_repo at hev
  have hgit : ∀ argv ∈ [gitCloneCmd, gitSparseInitCmd, gitSparseSetCmd, gitCheckoutCmd,
      gitPullCmd], isComposeEvent (Event.cmd argv) = false := by decide
  split at hev
  · rcases runSeq_tr_mem w _ fs ev hev with ⟨argv, hargv, rfl⟩
    refine hgit argv ?_
    simp only [List.mem_cons, List.mem_singleton] at hargv ⊢
    tauto
  · rcases runSeq_tr_mem w _ fs ev hev with ⟨argv, hargv, rfl⟩
    refine hgit argv ?_
    simp only [List.mem_cons, List.mem_singleton] at hargv ⊢
    tauto

theorem searxSubstitute_noCompose (w : World) :
    ∀ ev ∈ (searxSubstitute w).1, isComposeEvent ev = false := by
  intro ev hev
  unfold searxSubstitute at hev
  cases hp : w.platform with
  | windows =>
    rw [hp] at hev
    have : ev = Event.cmd psCommandArgv := by
      by_cases hc : w.cmdOk psCommandArgv = true <;>
        simp [hc] at hev <;> exact hev
    subst this
    decide
  | darwin =>
    rw [hp] at hev
    cases ho : w.opensslOut with
    | error e =>
      rw [ho] at hev
      have : ev = Event.cmd opensslCmd := by simpa using hev
      subst this
      decide
    | ok key =>
      rw [ho] at hev
      have : ev = Event.cmd opensslCmd ∨
          ev = Event.cmd ["sed", "-i", "", sedExprFor key, settingsPath] := by
        by_cases hc : w.cmdOk ["sed", "-i", "", sedExprFor key, settingsPath] = true <;>
          simp [hc] at hev <;> tauto
      rcases this with rfl | rfl
      · decide
      · rw [isCompose_head]
        decide
  | linux =>
    rw [hp] at hev
    cases ho : w.opensslOut with
    | error e =>
      rw [ho] at hev
      have : ev = Event.cmd opensslCmd := by simpa using hev
      subst this
      decide
    | ok key =>
      rw [ho] at hev
      have : ev = Event.cmd opensslCmd ∨
          ev = Event.cmd ["sed", "-i", sedExprFor key, settingsPath] := by
        by_cases hc : w.cmdOk ["sed", "-i", sedExprFor key, settingsPath] = true <;>
          simp [hc] at hev <;> tauto
      rcases this with rfl | rfl
      · decide
      · rw [isCompose_head]
        decide

theorem searx_tr_cases (w : World) (fs : FS) :
    (generate_searxng_secret_key w fs).tr = [] ∨
    (generate_searxng_secret_key w fs).tr = (searxSubstitute w).1 := by
  unfold generate_searxng_secret_key
  split
  · left; rfl
  · split
    · split
      · split
        · right; rfl
        · left; rfl
      · left; rfl
    · right; rfl

theorem searx_tr_noCompose (w : World) (fs : FS) :
    ∀ ev ∈ (generate_searxng_secret_key w fs).tr, isComposeEvent ev = false := by
  intro ev hev
  rcases searx_tr_cases w fs with h | h
  · rw [h] at hev; cases hev
  · rw [h] at hev
    exact searxSubstitute_noCompose w ev hev

theorem firstRun_tr_noCompose (w : World) :
    ∀ ev ∈ (searxngFirstRun w).2, isComposeEvent ev = false := by
  intro ev hev
  unfold searxngFirstRun at hev
  cases hps : w.dockerPs with
  | error e =>
    simp only [hps] at hev
    have : ev = Event.cmd dockerPsCmd := by simpa using hev
    subst this
    decide
  | ok out =>
    simp only [hps] at hev
    cases hf : (splitNl (pyStrip out)).find? (fun n => !n.isEmpty) with
    | none =>
      simp only [hf] at hev
      have : ev = Event.cmd dockerPsCmd := by simpa using hev
      subst this
      decide
    | some name =>
      simp only [hf] at hev
      cases hx : w.dockerExec name with
      | error e =>
        simp only [hx] at hev
        have : ev = Event.cmd dockerPsCmd ∨ ev = Event.cmd (dockerExecCmd name) := by
          simpa using hev
        rcases this with rfl | rfl
        · decide
        · rw [show dockerExecCmd name =
              "docker" :: "exec" :: String.mk name :: ["sh", "-c",
                "[ -f /etc/searxng/uwsgi.ini ] && echo \x27found\x27 || echo \x27not_found\x27"]
              from rfl, isCompose_head]
          decide
      | ok execOut =>
        simp only [hx] at hev
        have : ev = Event.cmd dockerPsCmd ∨ ev = Event.cmd (dockerExecCmd name) := by
          simpa using hev
        rcases this with rfl | rfl
        · decide
        · rw [show dockerExecCmd name =
              "docker" :: "exec" :: String.mk name :: ["sh", "-c",
                "[ -f /etc/searxng/uwsgi.ini ] && echo \x27found\x27 || echo \x27not_found\x27"]
              from rfl, isCompose_head]
          decide

theorem checkfix_tr_cases (w : World) (fs : FS) :
    (check_and_fix_docker_compose_for_searxng w fs).tr = [] ∨
    (check_and_fix_docker_compose_for_searxng w fs).tr = (searxngFirstRun w).2 := by
  unfold check_and_fix_docker_compose_for_searxng
  cases hm : fs composePath with
  | none => left; rfl
  | some node =>
    cases node with
    | file c => right; rfl
    | dir => left; rfl

theorem checkfix_tr_noCompose (w : World) (fs : FS) :
    ∀ ev ∈ (check_and_fix_docker_compose_for_searxng w fs).tr, isComposeEvent ev = false := by
  intro ev hev
  rcases checkfix_tr_cases w fs with h | h
  · rw [h] at hev; cases hev
  · rw [h] at hev
    exact firstRun_tr_noCompose w ev hev

theorem checkfix_ok (w : World) (fs : FS) :
    (check_and_fix_docker_compose_for_searxng w fs).ok = true := by
  unfold check_and_fix_docker_compose_for_searxng
  cases hm : fs composePath with
  | none => rfl
  | some node =>
    cases node with
    | file c => rfl
    | dir => rfl

/-! ### `main` characterisation -/

/-- The trace of `prepare_supabase_env` is always empty. -/
theorem prep_tr_nil (w : World) (fs : FS) : (prepare_supabase_env w fs).tr = [] := by
  unfold prepare_supabase_env
  split
  · split
    · rfl
    · rfl
  · rfl

theorem append4 {α : Type} (x : List α) (a b c d : α) :
    (((x ++ [a]) ++ [b]) ++ [c]) ++ [d] = x ++ [a, b, c, d] := by
  simp

/-- The trace of a successful run decomposes as a prelude of non-compose
invocations followed by teardown, first start, the fixed sleep, and the
second start. -/
theorem main_suffix (args : Args) (w : World) (fs : FS)
    (hok : (main args w fs).ok = true) :
    ∃ pre, (main args w fs).tr = pre ++
        [Event.cmd (stopCmd args.profile),
         Event.cmd (startSupabaseCmd args.environment args.rebuild),
         Event.sleep 15,
         Event.cmd (startLocalAiCmd args.profile args.environment args.rebuild)] ∧
      ∀ ev ∈ pre, isComposeEvent ev = false := by
  simp only [main] at hok ⊢
  obtain ⟨ht9, hok8s, -⟩ := andThen_suffix hok
  rw [ht9]
  obtain ⟨ht8s, hok8, -⟩ := andThen_suffix hok8s
  rw [ht8s]
  obtain ⟨ht8, hok7, -⟩ := andThen_suffix hok8
  rw [ht8]
  obtain ⟨ht7, hok6, -⟩ := andThen_suffix hok7
  rw [ht7]
  obtain ⟨ht6, hok5, -⟩ := andThen_suffix hok6
  rw [ht6]
  obtain ⟨ht5, hok4, -⟩ := andThen_suffix hok5
  rw [ht5]
  obtain ⟨ht4, hok3, -⟩ := andThen_suffix hok4
  rw [ht4]
  obtain ⟨ht3, hok2, -⟩ := andThen_suffix hok3
  rw [ht3]
  obtain ⟨ht2, hok1, -⟩ := andThen_suffix hok2
  rw [ht2]
  simp only [stop_existing_containers, start_supabase, start_local_ai, run_command]
  rw [append4]
  refine ⟨_, rfl, ?_⟩
  intro ev hev
  rcases List.mem_append.1 hev with hev | hev
  · rcases List.mem_append.1 hev with hev | hev
    · rcases List.mem_append.1 hev with hev | hev
      · rcases List.mem_append.1 hev with hev | hev
        · simp at hev
        · exact clone_tr_noCompose w _ ev hev
      · rw [prep_tr_nil] at hev
        cases hev
    · exact searx_tr_noCompose w _ ev hev
  · exact checkfix_tr_noCompose w _ ev hev

/-- `prepare_supabase_env` succeeds when the source file exists and the copy
succeeds. -/
theorem prepare_ok (w : World) (fs : FS) (c : List Char)
    (h : fs ".env" = some (Node.file c))
    (hcp : w.copyfileOk ".env" "supabase/docker/.env" = true) :
    (prepare_supabase_env w fs).ok = true := by
  unfold prepare_supabase_env
  rw [h]
  simp only [hcp, if_true]

theorem stop_ok (w : World) (fs : FS) (profile : Profile)
    (h : w.cmdOk (stopCmd profile) = true) :
    (stop_existing_containers w fs profile).ok = true := h

theorem start_supabase_ok (w : World) (fs : FS) (environment : Envt) (rebuild : Bool)
    (h : w.cmdOk (startSupabaseCmd environment rebuild) = true) :
    (start_supabase w fs environment rebuild).ok = true := h

theorem start_local_ai_ok (w : World) (fs : FS) (profile : Profile) (environment : Envt)
    (rebuild : Bool)
    (h : w.cmdOk (startLocalAiCmd profile environment rebuild) = true) :
    (start_local_ai w fs profile environment rebuild).ok = true := h

/-- Full characterisation of a successful `main` run in terms of the named
intermediate steps. -/
theorem main_run (args : Args) (w : World) (fs : FS)
    (hok1 : (mainU w fs).ok = true)
    (hok3 : (mainClone args w fs).ok = true)
    (hok4 : (mainPrep args w fs).ok = true)
    (hok7 : (mainStop args w fs).ok = true)
    (hok8 : (mainSupa args w fs).ok = true) :
    main args w fs =
      { ok := (mainLocal args w fs).ok, fs := (mainLocal args w fs).fs,
        tr := (mainClone args w fs).tr ++ (mainPrep args w fs).tr ++
          (mainSearx args w fs).tr ++ (mainCheck args w fs).tr ++
          (mainStop args w fs).tr ++ (mainSupa args w fs).tr ++
          Event.sleep 15 :: (mainLocal args w fs).tr } := by
  simp only [mainU] at hok1
  simp only [mainClone, mainFs1, mainU] at hok3
  simp only [mainPrep, mainClone, mainFs1, mainU] at hok4
  simp only [mainStop, mainCheck, mainSearx, mainPrep, mainClone, mainFs1, mainU] at hok7
  simp only [mainSupa, mainStop, mainCheck, mainSearx, mainPrep, mainClone, mainFs1,
    mainU] at hok8
  simp only [main, andThen_of_ok, hok1, hok3, hok4, hok7, hok8, checkfix_ok]
  simp [mainLocal, mainSupa, mainStop, mainCheck, mainSearx, mainPrep, mainClone,
    mainFs1, mainU, List.append_assoc]

/-! ### Claim C9 -/

/-- C9: on every completed run, the teardown invocation comes strictly before
both start invocations, the first stack's start comes strictly before the
second's, and exactly the fixed 15-unit sleep — no other invocation, in
particular no readiness polling — separates the two starts: the trace ends
with teardown, start A, sleep 15, start B, and no `docker compose`
invocation occurs before that suffix. -/
theorem claim_C9_startup_order (args : Args) (w : World) (fs : FS)
    (hok : (main args w fs).ok = true) :
    (main args w fs).tr.drop ((main args w fs).tr.length - 4) =
      [Event.cmd (stopCmd args.profile),
       Event.cmd (startSupabaseCmd args.environment args.rebuild),
       Event.sleep 15,
       Event.cmd (startLocalAiCmd args.profile args.environment args.rebuild)] ∧
    ∀ ev ∈ (main args w fs).tr.take ((main args w fs).tr.length - 4),
      isComposeEvent ev = false := by
  obtain ⟨pre, htr, hpre⟩ := main_suffix args w fs hok
  rw [htr]
  have hlen : (pre ++
      [Event.cmd (stopCmd args.profile),
       Event.cmd (startSupabaseCmd args.environment args.rebuild),
       Event.sleep 15,
       Event.cmd (startLocalAiCmd args.profile args.environment args.rebuild)]).length - 4 =
      pre.length := by
    simp
  rw [hlen, List.drop_left, List.take_left]
  exact ⟨rfl, hpre⟩

/-- C9 witness: a concrete completed run ends with teardown, start A,
sleep 15, start B. -/
theorem claim_C9_startup_order_witness :
    (main defaultArgs wBase fsTiny).tr.drop
        ((main defaultArgs wBase fsTiny).tr.length - 4) =
      [Event.cmd (stopCmd defaultArgs.profile),
       Event.cmd (startSupabaseCmd defaultArgs.environment defaultArgs.rebuild),
       Event.sleep 15,
       Event.cmd (startLocalAiCmd defaultArgs.profile defaultArgs.environment
         defaultArgs.rebuild)] :=
  (claim_C9_startup_order defaultArgs wBase fsTiny (by decide)).1

/-! ### Claim C7 -/

/-- C7: the settings-file seeding and the secret-key substitution are
independently guarded.  (a) A seeding failure is caught: the step ends with
the `copyFailed` outcome, no substitution invocation is attempted, and the
filesystem is untouched.  (b) A substitution failure (here: the Linux sed
invocation failing) ends with the manual-fallback outcome instead of a
failure.  (c) Neither failure mode can abort the run: with the steps outside
the settings block succeeding, `main` completes regardless of the
settings-internal outcomes. -/
theorem claim_C7_searx_error_isolation (w : World) (fs : FS) :
    ((fs settingsBasePath).isSome = true → fs settingsPath = Option.none →
      w.copyfileOk settingsBasePath settingsPath = false →
      (generate_searxng_secret_key w fs).outcome = SearxOutcome.copyFailed ∧
      (generate_searxng_secret_key w fs).tr = [] ∧
      (generate_searxng_secret_key w fs).fs = fs) ∧
    (∀ key, w.platform = Plat.linux → ¬fs settingsPath = Option.none →
      ¬fs settingsBasePath = Option.none →
      w.opensslOut = Except.ok key →
      w.cmdOk ["sed", "-i", sedExprFor key, settingsPath] = false →
      (generate_searxng_secret_key w fs).outcome = SearxOutcome.fallback) ∧
    (∀ args envC, args.resetDb = false →
      fs ".env" = some (Node.file envC) →
      w.copyfileOk ".env" "supabase/docker/.env" = true →
      (∀ cArgv ∈ [gitCloneCmd, gitSparseInitCmd, gitSparseSetCmd, gitCheckoutCmd,
        gitPullCmd, stopCmd args.profile,
        startSupabaseCmd args.environment args.rebuild,
        startLocalAiCmd args.profile args.environment args.rebuild],
        w.cmdOk cArgv = true) →
      (main args w fs).ok = true) := by
  refine ⟨?_, ?_, ?_⟩
  · intro hbase hset hcp
    have hbase' : ¬fs settingsBasePath = Option.none := by
      intro h
      rw [h] at hbase
      cases hbase
    unfold generate_searxng_secret_key
    rw [if_neg hbase', if_pos hset]
    cases hr : readFile fs settingsBasePath with
    | none => exact ⟨rfl, rfl, rfl⟩
    | some c =>
      rw [hcp]
      exact ⟨rfl, rfl, rfl⟩
  · intro key hplat hset hbase ho hsed
    unfold generate_searxng_secret_key
    rw [if_neg hbase, if_neg hset]
    show (searxSubstitute w).2 = SearxOutcome.fallback
    unfold searxSubstitute
    rw [hplat, ho]
    simp only [hsed]
    rw [if_neg (by simp)]
  · intro args envC hreset henv hcp hcmd
    obtain ⟨huok, huenv, huframe⟩ := update_env_fs w.secretEntropy fs envC henv
    have hfs1eq : mainFs1 args w fs = (update_env_secrets w.secretEntropy fs).fs := by
      unfold mainFs1 mainU
      rw [hreset]
      simp
    have hclonefs : (mainClone args w fs).fs =
        (update_env_secrets w.secretEntropy fs).fs := by
      unfold mainClone
      rw [clone_fs, hfs1eq]
    have hok1 : (mainU w fs).ok = true := huok
    have hok3 : (mainClone args w fs).ok = true := by
      apply clone_ok
      intro cArgv hcA
      apply hcmd
      simp only [List.mem_cons, List.mem_singleton] at hcA ⊢
      tauto
    have hok4 : (mainPrep args w fs).ok = true := by
      refine prepare_ok w _ (foldRep (envReplacements w.secretEntropy) envC) ?_ hcp
      rw [hclonefs]
      exact huenv
    have hok7 : (mainStop args w fs).ok = true :=
      stop_ok w _ args.profile (hcmd _ (by simp))
    have hok8 : (mainSupa args w fs).ok = true :=
      start_supabase_ok w _ args.environment args.rebuild (hcmd _ (by simp))
    rw [main_run args w fs hok1 hok3 hok4 hok7 hok8]
    exact start_local_ai_ok w (mainSupa args w fs).fs args.profile args.environment
      args.rebuild (hcmd _ (by simp))

/-- C7 witness: with a world in which copying the settings template fails,
the step reports `copyFailed` and the full run still completes. -/
theorem claim_C7_searx_error_isolation_witness :
    (generate_searxng_secret_key
      { wBase with copyfileOk := fun a _ => !(a == "searxng/settings-base.yml") }
      fsFresh).outcome = SearxOutcome.copyFailed ∧
    (main defaultArgs
      { wBase with copyfileOk := fun a _ => !(a == "searxng/settings-base.yml") }
      fsFresh).ok = true := by
  have h := claim_C7_searx_error_isolation
    { wBase with copyfileOk := fun a _ => !(a == "searxng/settings-base.yml") } fsFresh
  refine ⟨(h.1 (by decide) (by decide) (by decide)).1, ?_⟩
  exact h.2.2 defaultArgs defaultEnvContent rfl rfl (by decide) (by decide)

/-! ### Claim C5 -/

theorem prepare_fs (w : World) (fs : FS) (c : List Char)
    (h : fs ".env" = some (Node.file c))
    (hcp : w.copyfileOk ".env" "supabase/docker/.env" = true) :
    (prepare_supabase_env w fs).fs =
      fun p => if p = "supabase/docker/.env" then some (Node.file c) else fs p := by
  unfold prepare_supabase_env
  rw [h]
  simp only [hcp, if_true]

/-- One successful Linux run of the settings step on a filesystem with the
template present and the settings file absent. -/
theorem searx_run (w : World) (fs : FS) (baseC key : List Char)
    (hplat : w.platform = Plat.linux)
    (hssl : w.opensslOut = Except.ok key)
    (hsed : w.cmdOk ["sed", "-i", sedExprFor key, settingsPath] = true)
    (hbase : fs settingsBasePath = some (Node.file baseC))
    (hset : fs settingsPath = Option.none)
    (hcpy : w.copyfileOk settingsBasePath settingsPath = true) :
    generate_searxng_secret_key w fs =
      { fs := fun p => if p = settingsPath then some (Node.file baseC) else fs p,
        tr := [Event.cmd opensslCmd,
          Event.cmd ["sed", "-i", sedExprFor key, settingsPath]],
        outcome := SearxOutcome.substituted } := by
  have hsub : searxSubstitute w =
      ([Event.cmd opensslCmd, Event.cmd ["sed", "-i", sedExprFor key, settingsPath]],
        SearxOutcome.substituted) := by
    unfold searxSubstitute
    rw [hplat, hssl]
    simp only [hsed, if_true]
  have hbase' : ¬fs settingsBasePath = Option.none := by
    intro h
    rw [h] at hbase
    cases hbase
  have hread : readFile fs settingsBasePath = some baseC := by
    unfold readFile
    rw [hbase]
  unfold generate_searxng_secret_key
  rw [if_neg hbase', if_pos hset, hread]
  simp only [hcpy, if_true, hsub]

theorem checkfix_run (w : World) (fs : FS) (compC : List Char)
    (hcomp : fs composePath = some (Node.file compC)) :
    check_and_fix_docker_compose_for_searxng w fs =
      { ok := true,
        fs := fun p => if p = composePath then
          some (Node.file (toggleCapDrop (searxngFirstRun w).1 compC)) else fs p,
        tr := (searxngFirstRun w).2 } := by
  unfold check_and_fix_docker_compose_for_searxng
  rw [hcomp]

/-- With the container query returning no containers, the determination is
"first run" and only the `docker ps` probe was issued. -/
theorem firstRun_empty (w : World) (h : w.dockerPs = Except.ok []) :
    searxngFirstRun w = (true, [Event.cmd dockerPsCmd]) := by
  unfold searxngFirstRun
  rw [h]
  rfl

/-- C5, counterexample: on a fresh working directory with default flags the
run completes, but the first stack's start invocation is issued with neither
the `cpu` profile nor the `private` overlay (both apply only to the second
stack), contradicting the claim that both stacks' start invocations carry
them. -/
theorem claim_C5_counterexample :
    (main defaultArgs wBase fsFresh).ok = true ∧
    (main defaultArgs wBase fsFresh).tr.getD 8 (Event.sleep 0) =
      Event.cmd ["docker", "compose", "-p", "localai", "-f",
        "supabase/docker/docker-compose.yml", "up", "-d"] ∧
    "--profile" ∉ ["docker", "compose", "-p", "localai", "-f",
        "supabase/docker/docker-compose.yml", "up", "-d"] ∧
    "docker-compose.override.private.yml" ∉ ["docker", "compose", "-p", "localai", "-f",
        "supabase/docker/docker-compose.yml", "up", "-d"] := by
  decide

/-- C5 (amended): invoking with default flags on a fresh working directory
(no vendored directory, line-structured environment file containing all
placeholders, base settings template present, settings file absent, manifest
containing the active hardening directive, no running search container, all
external invocations succeeding) results in: every placeholder replaced in
the environment file, the clone + sparse-checkout + checkout sequence
issued, the updated environment file copied into the vendored directory, the
settings file created from the base template, the hardening directive
commented out, and the two start invocations issued — the local AI stack's
with the `cpu` profile and the `private` overlay, the Supabase stack's with
neither. -/
theorem claim_C5_amended (w : World) (fs : FS) (envC baseC compC key : List Char)
    (hplat : w.platform = Plat.linux)
    (hps : w.dockerPs = Except.ok [])
    (hcmd : ∀ argv, w.cmdOk argv = true)
    (hcpy : ∀ a b, w.copyfileOk a b = true)
    (hssl : w.opensslOut = Except.ok key)
    (henv : fs ".env" = some (Node.file envC))
    (hclean : cleanEnv envC)
    (hall : ∀ o ∈ envPlaceholders, occursB o envC = true)
    (hsup : fs "supabase" = Option.none)
    (hbase : fs settingsBasePath = some (Node.file baseC))
    (hset : fs settingsPath = Option.none)
    (hcomp : fs composePath = some (Node.file compC))
    (hcap : occursB capActive compC = true) :
    (main defaultArgs w fs).ok = true ∧
    (main defaultArgs w fs).fs ".env" =
      some (Node.file (foldRep (envReplacements w.secretEntropy) envC)) ∧
    (∀ o ∈ envPlaceholders,
      occursB o (foldRep (envReplacements w.secretEntropy) envC) = false) ∧
    (main defaultArgs w fs).fs "supabase/docker/.env" =
      some (Node.file (foldRep (envReplacements w.secretEntropy) envC)) ∧
    (main defaultArgs w fs).fs settingsPath = some (Node.file baseC) ∧
    (main defaultArgs w fs).fs composePath =
      some (Node.file (replaceAll capActive capCommented compC)) ∧
    occursB capCommented (replaceAll capActive capCommented compC) = true ∧
    (main defaultArgs w fs).tr =
      [Event.cmd gitCloneCmd, Event.cmd gitSparseInitCmd, Event.cmd gitSparseSetCmd,
       Event.cmd gitCheckoutCmd, Event.cmd opensslCmd,
       Event.cmd ["sed", "-i", sedExprFor key, settingsPath],
       Event.cmd dockerPsCmd,
       Event.cmd (stopCmd Profile.cpu),
       Event.cmd (startSupabaseCmd Envt.priv false),
       Event.sleep 15,
       Event.cmd (startLocalAiCmd Profile.cpu Envt.priv false)] := by
  obtain ⟨huok, huenv, huframe⟩ := update_env_fs w.secretEntropy fs envC henv
  obtain ⟨-, hocc, -⟩ := env_content_two_runs w.secretEntropy w.secretEntropy envC hclean
  have hfs1eq : mainFs1 defaultArgs w fs = (update_env_secrets w.secretEntropy fs).fs := by
    unfold mainFs1 mainU
    simp [defaultArgs]
  -- the vendored directory is still absent after the provisioning step
  have hsup1 : mainFs1 defaultArgs w fs "supabase" = Option.none := by
    rw [hfs1eq, huframe "supabase" (by decide)]
    exact hsup
  -- manifest-sync step
  have hcloneEq : mainClone defaultArgs w fs =
      runSeq w (mainFs1 defaultArgs w fs)
        [gitCloneCmd, gitSparseInitCmd, gitSparseSetCmd, gitCheckoutCmd] := by
    unfold mainClone clone_supabase_repo
    rw [if_pos hsup1]
  have hcloneTr : (mainClone defaultArgs w fs).tr =
      [Event.cmd gitCloneCmd, Event.cmd gitSparseInitCmd, Event.cmd gitSparseSetCmd,
       Event.cmd gitCheckoutCmd] := by
    rw [hcloneEq, runSeq_tr_of_ok w _ _ (fun c _ => hcmd c)]
    rfl
  have hclonefs : (mainClone defaultArgs w fs).fs =
      (update_env_secrets w.secretEntropy fs).fs := by
    rw [hcloneEq, runSeq_fs, hfs1eq]
  have hok1 : (mainU w fs).ok = true := huok
  have hok3 : (mainClone defaultArgs w fs).ok = true := by
    rw [hcloneEq]
    exact runSeq_ok w _ _ (fun c _ => hcmd c)
  -- config propagation
  have henv1 : (mainClone defaultArgs w fs).fs ".env" =
      some (Node.file (foldRep (envReplacements w.secretEntropy) envC)) := by
    rw [hclonefs]
    exact huenv
  have hok4 : (mainPrep defaultArgs w fs).ok = true :=
    prepare_ok w _ _ henv1 (hcpy _ _)
  have hprepfs : (mainPrep defaultArgs w fs).fs =
      fun p => if p = "supabase/docker/.env" then
        some (Node.file (foldRep (envReplacements w.secretEntropy) envC))
      else (mainClone defaultArgs w fs).fs p := by
    unfold mainPrep
    exact prepare_fs w _ _ henv1 (hcpy _ _)
  -- settings step
  have hbaseP : (mainPrep defaultArgs w fs).fs settingsBasePath =
      some (Node.file baseC) := by
    rw [hprepfs]
    show (if settingsBasePath = "supabase/docker/.env" then some (Node.file (foldRep (envReplacements w.secretEntropy) envC)) else
      (mainClone defaultArgs w fs).fs settingsBasePath) = some (Node.file baseC)
    rw [if_neg (by decide), hclonefs, huframe settingsBasePath (by decide)]
    exact hbase
  have hsetP : (mainPrep defaultArgs w fs).fs settingsPath = Option.none := by
    rw [hprepfs]
    show (if settingsPath = "supabase/docker/.env" then some (Node.file (foldRep (envReplacements w.secretEntropy) envC)) else
      (mainClone defaultArgs w fs).fs settingsPath) = Option.none
    rw [if_neg (by decide), hclonefs, huframe settingsPath (by decide)]
    exact hset
  have hsearxEq : mainSearx defaultArgs w fs =
      { fs := fun p => if p = settingsPath then some (Node.file baseC)
          else (mainPrep defaultArgs w fs).fs p,
        tr := [Event.cmd opensslCmd,
          Event.cmd ["sed", "-i", sedExprFor key, settingsPath]],
        outcome := SearxOutcome.substituted } := by
    unfold mainSearx
    exact searx_run w _ baseC key hplat hssl (hcmd _) hbaseP hsetP (hcpy _ _)
  -- capability toggle
  have hcompS : (mainSearx defaultArgs w fs).fs composePath = some (Node.file compC) := by
    rw [hsearxEq]
    show (if composePath = settingsPath then some (Node.file baseC) else
      (mainPrep defaultArgs w fs).fs composePath) = some (Node.file compC)
    rw [if_neg (by decide), hprepfs]
    show (if composePath = "supabase/docker/.env" then some (Node.file (foldRep (envReplacements w.secretEntropy) envC)) else
      (mainClone defaultArgs w fs).fs composePath) = some (Node.file compC)
    rw [if_neg (by decide), hclonefs, huframe composePath (by decide)]
    exact hcomp
  have hfr := firstRun_empty w hps
  have htoggle : toggleCapDrop (searxngFirstRun w).1 compC =
      replaceAll capActive capCommented compC := by
    rw [hfr]
    unfold toggleCapDrop
    rw [if_pos ⟨rfl, hcap⟩]
  have hcheckEq : mainCheck defaultArgs w fs =
      { ok := true,
        fs := fun p => if p = composePath then
          some (Node.file (replaceAll capActive capCommented compC))
        else (mainSearx defaultArgs w fs).fs p,
        tr := [Event.cmd dockerPsCmd] } := by
    unfold mainCheck
    rw [checkfix_run w _ compC hcompS, htoggle, hfr]
  have hok7 : (mainStop defaultArgs w fs).ok = true :=
    stop_ok w _ defaultArgs.profile (hcmd _)
  have hok8 : (mainSupa defaultArgs w fs).ok = true :=
    start_supabase_ok w _ defaultArgs.environment defaultArgs.rebuild (hcmd _)
  have hrun := main_run defaultArgs w fs hok1 hok3 hok4 hok7 hok8
  rw [hrun]
  have hfsfinal : (mainLocal defaultArgs w fs).fs = (mainCheck defaultArgs w fs).fs := rfl
  refine ⟨hcmd _, ?_, hocc, ?_, ?_, ?_, ?_, ?_⟩
  · show (mainCheck defaultArgs w fs).fs ".env" = some (Node.file (foldRep (envReplacements w.secretEntropy) envC))
    rw [hcheckEq]
    show (if (".env" : String) = composePath then some (Node.file (replaceAll capActive capCommented compC)) else
      (mainSearx defaultArgs w fs).fs ".env") = some (Node.file (foldRep (envReplacements w.secretEntropy) envC))
    rw [if_neg (by decide), hsearxEq]
    show (if (".env" : String) = settingsPath then some (Node.file baseC) else
      (mainPrep defaultArgs w fs).fs ".env") = some (Node.file (foldRep (envReplacements w.secretEntropy) envC))
    rw [if_neg (by decide), hprepfs]
    show (if (".env" : String) = "supabase/docker/.env" then some (Node.file (foldRep (envReplacements w.secretEntropy) envC)) else
      (mainClone defaultArgs w fs).fs ".env") = some (Node.file (foldRep (envReplacements w.secretEntropy) envC))
    rw [if_neg (by decide)]
    exact henv1
  · show (mainCheck defaultArgs w fs).fs "supabase/docker/.env" = some (Node.file (foldRep (envReplacements w.secretEntropy) envC))
    rw [hcheckEq]
    show (if ("supabase/docker/.env" : String) = composePath then some (Node.file (replaceAll capActive capCommented compC)) else
      (mainSearx defaultArgs w fs).fs "supabase/docker/.env") = some (Node.file (foldRep (envReplacements w.secretEntropy) envC))
    rw [if_neg (by decide), hsearxEq]
    show (if ("supabase/docker/.env" : String) = settingsPath then some (Node.file baseC) else
      (mainPrep defaultArgs w fs).fs "supabase/docker/.env") = some (Node.file (foldRep (envReplacements w.secretEntropy) envC))
    rw [if_neg (by decide), hprepfs]
    show (if ("supabase/docker/.env" : String) = "supabase/docker/.env" then
      some (Node.file (foldRep (envReplacements w.secretEntropy) envC)) else (mainClone defaultArgs w fs).fs "supabase/docker/.env") = some (Node.file (foldRep (envReplacements w.secretEntropy) envC))
    rw [if_pos rfl]
  · show (mainCheck defaultArgs w fs).fs settingsPath = some (Node.file baseC)
    rw [hcheckEq]
    show (if settingsPath = composePath then some (Node.file (replaceAll capActive capCommented compC)) else
      (mainSearx defaultArgs w fs).fs settingsPath) = some (Node.file baseC)
    rw [if_neg (by decide), hsearxEq]
    show (if settingsPath = settingsPath then some (Node.file baseC) else
      (mainPrep defaultArgs w fs).fs settingsPath) = some (Node.file baseC)
    rw [if_pos rfl]
  · show (mainCheck defaultArgs w fs).fs composePath = some (Node.file (replaceAll capActive capCommented compC))
    rw [hcheckEq]
    show (if composePath = composePath then
      some (Node.file (replaceAll capActive capCommented compC)) else (mainSearx defaultArgs w fs).fs composePath) = some (Node.file (replaceAll capActive capCommented compC))
    rw [if_pos rfl]
  · exact occursB_rep_of_fired capCommented (by decide) hcap
  · show (mainClone defaultArgs w fs).tr ++ (mainPrep defaultArgs w fs).tr ++
      (mainSearx defaultArgs w fs).tr ++ (mainCheck defaultArgs w fs).tr ++
      (mainStop defaultArgs w fs).tr ++ (mainSupa defaultArgs w fs).tr ++
      Event.sleep 15 :: (mainLocal defaultArgs w fs).tr =
      [Event.cmd gitCloneCmd, Event.cmd gitSparseInitCmd, Event.cmd gitSparseSetCmd,
       Event.cmd gitCheckoutCmd, Event.cmd opensslCmd,
       Event.cmd ["sed", "-i", sedExprFor key, settingsPath],
       Event.cmd dockerPsCmd,
       Event.cmd (stopCmd Profile.cpu),
       Event.cmd (startSupabaseCmd Envt.priv false),
       Event.sleep 15,
       Event.cmd (startLocalAiCmd Profile.cpu Envt.priv false)]
    rw [hcloneTr,
      show (mainPrep defaultArgs w fs).tr = ([] : List Event) from
        prep_tr_nil w (mainClone defaultArgs w fs).fs]
    rw [show (mainSearx defaultArgs w fs).tr =
      [Event.cmd opensslCmd, Event.cmd ["sed", "-i", sedExprFor key, settingsPath]] by
        rw [hsearxEq]]
    rw [show (mainCheck defaultArgs w fs).tr = [Event.cmd dockerPsCmd] by rw [hcheckEq]]
    rfl

set_option maxRecDepth 4000 in
/-- C5 witness: the fresh-directory scenario at a concrete world. -/
theorem claim_C5_amended_witness :
    (main defaultArgs wBase fsFresh).ok = true ∧
    (main defaultArgs wBase fsFresh).tr =
      [Event.cmd gitCloneCmd, Event.cmd gitSparseInitCmd, Event.cmd gitSparseSetCmd,
       Event.cmd gitCheckoutCmd, Event.cmd opensslCmd,
       Event.cmd ["sed", "-i", sedExprFor "0f".toList, settingsPath],
       Event.cmd dockerPsCmd,
       Event.cmd (stopCmd Profile.cpu),
       Event.cmd (startSupabaseCmd Envt.priv false),
       Event.sleep 15,
       Event.cmd (startLocalAiCmd Profile.cpu Envt.priv false)] := by
  have h := claim_C5_amended wBase fsFresh defaultEnvContent "x".toList capActive
    "0f".toList rfl rfl (fun _ => rfl) (fun _ _ => rfl) rfl rfl
    (by unfold cleanEnv; decide) (by decide) rfl rfl rfl rfl (by decide)
  exact ⟨h.1, h.2.2.2.2.2.2.2⟩

end StartServices
